import Mathlib

/-!
# Verification of the comic-tagger metadata engine

Shallow embedding of the metadata tagging engine of the `comic-tagger`
repository (files `tagging.py`, `inspect_files.py`, `utils.py`) together
with proofs of the specification claims about it.

Modelling conventions:
* Python dictionaries (insertion-ordered, unique keys, in-place value
  overwrite keeping position) are modelled as association lists
  `List (String × String)` with `dinsert` performing the in-place
  overwrite-or-append of a `dict` assignment.
* An `xml.etree.ElementTree` `ComicInfo` document is modelled as its root
  attributes plus the ordered list of direct children `(tag, text)`.
  `ET.parse`/`ET.tostring` round-trip a tree faithfully except that
  `xmlns:*` namespace-declaration attributes are consumed by the parser
  and are absent from the reparsed tree (`reparsedDoc` below); indentation
  whitespace added by `ET.indent` lives in tails and is re-normalised by
  the next `ET.indent`, so children `(tag, text)` pairs are preserved.
* File-system effects of `write_comic_info_to_cbz` / `erase_comic_info_from_cbz`
  are modelled as a step sequence over a file-system state with an injected
  failure point; `shutil.move` performs an atomic `os.rename` when the
  temporary file is on the same filesystem as the destination and degrades
  to a non-atomic copy-then-delete otherwise (Python library semantics).
-/

/-- Does `needle` occur at the start of `hay` (character lists)? -/
def startsWithChars : List Char → List Char → Bool
  | [], _ => true
  | _ :: _, [] => false
  | a :: as, b :: bs => (a == b) && startsWithChars as bs

/-- Does `needle` occur anywhere inside the character list (Python `in`)? -/
def occursIn (needle : List Char) : List Char → Bool
  | [] => startsWithChars needle []
  | b :: bs => startsWithChars needle (b :: bs) || occursIn needle bs

/-- Python `needle in hay` on strings. -/
def strHasSub (hay needle : String) : Bool :=
  occursIn needle.data hay.data

/-- Drop leading characters satisfying `p`. -/
def dropWhileChars (p : Char → Bool) : List Char → List Char
  | [] => []
  | c :: rest => if p c then dropWhileChars p rest else c :: rest

/-- Python `str.strip()` (ASCII whitespace), as a structurally recursive
equivalent of `String.trim`. -/
def pyStrip (s : String) : String :=
  String.mk (dropWhileChars Char.isWhitespace
    ((dropWhileChars Char.isWhitespace s.data.reverse).reverse))

/-- Python `str.lower()` (ASCII), as a structurally recursive equivalent of
`String.toLower`. -/
def pyLower (s : String) : String :=
  String.mk (s.data.map Char.toLower)

/-- Split on a single separator character (the only shapes of `str.split`
used by the source). -/
def splitOnChar (sep : Char) : List Char → List (List Char)
  | [] => [[]]
  | c :: rest =>
    match splitOnChar sep rest with
    | [] => [[]]
    | g :: gs => if c = sep then [] :: g :: gs else (c :: g) :: gs

/-- Python `s.split(sep)` for a one-character separator. -/
def pySplit (s : String) (sep : Char) : List String :=
  (splitOnChar sep s.data).map String.mk

/-- `s[:n]` on byte strings. -/
def pyTake (s : String) (n : Nat) : String :=
  String.mk (s.data.take n)

/-- Python `dict` lookup on an insertion-ordered association list. -/
def dget (d : List (String × String)) (k : String) : Option String :=
  match d.find? (fun p => p.1 == k) with
  | some p => some p.2
  | none => none

/-- Python `k in dict`. -/
def dcontains (d : List (String × String)) (k : String) : Bool :=
  d.any (fun p => p.1 == k)

/-- Python `dict[k] = v`: overwrite in place if the key exists, else append. -/
def dinsert (d : List (String × String)) (k v : String) : List (String × String) :=
  if dcontains d k then d.map (fun p => if p.1 == k then (k, v) else p)
  else d ++ [(k, v)]

/-- Python `dict.setdefault(k, v)`. -/
def dsetdefault (d : List (String × String)) (k v : String) : List (String × String) :=
  if dcontains d k then d else d ++ [(k, v)]

/-- The reserved metadata entry name (`comic_info_filename` in `tagging.py`). -/
def comic_info_filename : String := "ComicInfo.xml"

/-- `comic_info_filename.lower()`, used for case-insensitive matching. -/
def comic_info_filename_lower : String := "comicinfo.xml"

/-- The canonical serialization order of `create_comic_info_xml_element`. -/
def tag_order : List String :=
  ["Title", "Series", "Number", "Count", "Volume", "AlternateSeries",
   "AlternateNumber", "AlternateCount", "Summary", "Notes", "Year", "Month",
   "Day", "Writer", "Penciller", "Inker", "Colorist", "Letterer",
   "CoverArtist", "Editor", "Artist", "Publisher", "Imprint", "Genre", "Web",
   "PageCount", "LanguageISO", "Format", "BlackAndWhite", "Manga",
   "Characters", "Teams", "Locations", "StoryArc", "SeriesGroup", "AgeRating",
   "ScanInformation"]

/-- An `ElementTree` `ComicInfo` root: attributes of the root element and
its direct children as ordered `(tag, text)` pairs. -/
structure XmlDoc where
  attrs : List (String × String)
  children : List (String × String)
deriving DecidableEq

/-- The two namespace attributes set on a freshly created root
(`root.set("xmlns:xsi", ...)`, `root.set("xmlns:xsd", ...)`). -/
def xmlnsAttrs : List (String × String) :=
  [("xmlns:xsi", "http://www.w3.org/2001/XMLSchema-instance"),
   ("xmlns:xsd", "http://www.w3.org/2001/XMLSchema")]

/-- Children of the element built by `create_comic_info_xml_element`:
fields found in `tag_order` first, in that fixed order, then the remaining
dictionary items in insertion order (values are strings, so the
`is not None` guards of the source always hold here). -/
def create_comic_info_children (d : List (String × String)) : List (String × String) :=
  let processed := tag_order.filter (fun t => dcontains d t)
  (tag_order.filterMap (fun t => (dget d t).map (fun v => (t, v)))) ++
    d.filter (fun p => !(processed.contains p.1))

/-- `create_comic_info_xml_element` from `tagging.py`. -/
def create_comic_info_xml_element (d : List (String × String)) : XmlDoc :=
  { attrs := xmlnsAttrs, children := create_comic_info_children d }

/-- `ET.Element.find` followed by setting `.text`: replace the text of the
first child carrying the tag. -/
def setFirstText (cs : List (String × String)) (tag v : String) : List (String × String) :=
  match cs with
  | [] => []
  | c :: rest => if c.1 == tag then (c.1, v) :: rest else c :: setFirstText rest tag v

/-- One iteration of the merge loop of `write_comic_info_to_cbz`
(lines 309-313): overwrite the first existing element with this tag,
or append a new one. -/
def mergeField (cs : List (String × String)) (tag v : String) : List (String × String) :=
  if dcontains cs tag then setFirstText cs tag v else cs ++ [(tag, v)]

/-- The merge loop of `write_comic_info_to_cbz`: for every item of the new
record whose value is non-empty after trimming, overwrite or insert that
field in the existing children. -/
def mergeChildren (cs : List (String × String)) (r : List (String × String)) :
    List (String × String) :=
  r.foldl (fun acc p => if pyStrip p.2 == "" then acc else mergeField acc p.1 p.2) cs

/-- Outcome of the `ReadExisting` scan of `write_comic_info_to_cbz`:
no entry found, an entry that failed to parse (`ET.ParseError`), or a
successfully parsed document. -/
inductive ExistingEntry where
  | absent
  | corrupted
  | parsed (doc : XmlDoc)
deriving DecidableEq

/-- The document serialized by `write_comic_info_to_cbz` (lines 287-318).
The Python truthiness test `if existing_comic_info_root and not overwrite_all`
treats an `Element` with no children as false, hence the `isEmpty` guard. -/
def finalXmlRoot (ex : ExistingEntry) (r : List (String × String))
    (overwrite_all : Bool) : XmlDoc :=
  if overwrite_all then create_comic_info_xml_element r
  else
    match ex with
    | .parsed doc =>
        if doc.children.isEmpty then create_comic_info_xml_element r
        else { doc with children := mergeChildren doc.children r }
    | _ => create_comic_info_xml_element r

/-- Escaping applied by `ET.tostring` to one character of text content. -/
def escapeCharText (c : Char) : List Char :=
  if c = '&' then "&amp;".data
  else if c = '<' then "&lt;".data
  else if c = '>' then "&gt;".data
  else [c]

/-- Escaping applied by `ET.tostring` to text content. -/
def escapeXmlText (s : String) : String :=
  String.mk ((s.data.map escapeCharText).flatten)

/-- Escaping applied by `ET.tostring` to attribute values. -/
def escapeXmlAttr (s : String) : String :=
  String.mk (((escapeXmlText s).data.map
    (fun c => if c = '\"' then "&quot;".data else [c])).flatten)

/-- Serialized form of the root attributes. -/
def serializeAttrs (attrs : List (String × String)) : String :=
  String.join (attrs.map (fun a => " " ++ a.1 ++ "=\"" ++ escapeXmlAttr a.2 ++ "\""))

/-- Serialized form of one child element after `ET.indent(root, space="\t")`. -/
def serializeChild (c : String × String) : String :=
  "\n\t<" ++ c.1 ++ ">" ++ escapeXmlText c.2 ++ "</" ++ c.1 ++ ">"

/-- `ET.tostring(root, encoding='utf-8', xml_declaration=True,
short_empty_elements=False)` after `ET.indent(root, space="\t")`. -/
def serializeXmlDoc (doc : XmlDoc) : String :=
  "<?xml version='1.0' encoding='utf-8'?>\n" ++
  "<ComicInfo" ++ serializeAttrs doc.attrs ++ ">" ++
  (if doc.children.isEmpty then ""
   else String.join (doc.children.map serializeChild) ++ "\n") ++
  "</ComicInfo>"

/-- Does an attribute name declare a namespace? -/
def isXmlnsAttr (name : String) : Bool :=
  name == "xmlns" || startsWithChars "xmlns:".data name.data

/-- The tree obtained by `ET.parse` from the serialized form of `doc`:
`ElementTree` consumes `xmlns:*` declarations during parsing (they do not
appear in `attrib`), all other attributes and the `(tag, text)` children
survive; indentation whitespace lives in tails and is re-normalised by the
next `ET.indent`. -/
def reparsedDoc (doc : XmlDoc) : XmlDoc :=
  { attrs := doc.attrs.filter (fun a => !(isXmlnsAttr a.1)), children := doc.children }

/-- Scan forward to the first `'>'`, returning the characters before it and
the remainder after it (helper for the tag-removal regex `<[^>]+>`). -/
def splitAtGt (acc : List Char) : List Char → Option (List Char × List Char)
  | [] => none
  | c :: rest => if c = '>' then some (acc.reverse, rest) else splitAtGt (acc ++ [c]) rest

theorem splitAtGt_length {acc i after : List Char} :
    ∀ {l : List Char}, splitAtGt acc l = some (i, after) → after.length < l.length := by
  intro l
  induction l generalizing acc with
  | nil => intro h; simp [splitAtGt] at h
  | cons c rest ih =>
    intro h
    by_cases hc : c = '>'
    · simp [splitAtGt, hc] at h
      simp [h.2]
    · simp only [splitAtGt, if_neg hc] at h
      have := ih h
      simp only [List.length_cons]
      omega

/-- `re.sub(r'<[^>]+>', '', s)`: drop every `<...>` run with at least one
character between the brackets. -/
def removeTags : List Char → List Char
  | [] => []
  | c :: rest =>
    if c = '<' then
      match h : splitAtGt [] rest with
      | some (inside, after) =>
          if inside.isEmpty then c :: removeTags rest
          else removeTags after
      | none => c :: removeTags rest
    else c :: removeTags rest
termination_by l => l.length
decreasing_by
  · simp only [List.length_cons]; omega
  · exact Nat.lt_trans (splitAtGt_length h) (by simp)
  · simp only [List.length_cons]; omega
  · simp only [List.length_cons]; omega

/-- `strip_html` from `utils.py`: remove HTML tags, replace the one
non-identity entry of the entity table (non-breaking space to plain space),
then strip. -/
def strip_html (s : String) : String :=
  if s == "" then ""
  else pyStrip (String.mk ((removeTags s.data).map (fun c => if c = ' ' then ' ' else c)))

/-- A ComicVine object carrying only a `name` (publisher, character, team,
location, story arc, concept, object credits). -/
structure CVNamed where
  name : Option String := none
deriving DecidableEq

/-- A ComicVine person credit: a `name` and a free-text `role`. -/
structure CVPerson where
  name : Option String := none
  role : Option String := none
deriving DecidableEq

/-- The nested `volume` object of a ComicVine issue. -/
structure CVVolume where
  name : Option String := none
  publisher : Option CVNamed := none
  count_of_issues : Option String := none
  start_year : Option String := none
deriving DecidableEq

/-- The `results` object of a ComicVine issue response, restricted to the
keys read by `map_cv_to_comicinfo_dict`. Numeric values are modelled in
their `str(...)` form. -/
structure CVIssue where
  name : Option String := none
  issue_number : Option String := none
  aliases : Option String := none
  cover_date : Option String := none
  store_date : Option String := none
  description : Option String := none
  deck : Option String := none
  site_detail_url : Option String := none
  volume : Option CVVolume := none
  person_credits : List CVPerson := []
  character_credits : List CVNamed := []
  team_credits : List CVNamed := []
  location_credits : List CVNamed := []
  story_arc_credits : List CVNamed := []
  concept_credits : List CVNamed := []
  object_credits : List CVNamed := []
deriving DecidableEq

/-- Python truthiness of an optional string: `None` and `""` are falsy. -/
def truthy (o : Option String) : Option String :=
  match o with
  | some s => if s == "" then none else some s
  | none => none

/-- Are all characters ASCII decimal digits (and the list non-empty)?
Models Python `str.isdigit` and the digit classes of `strptime` for ASCII
content; Python additionally accepts Unicode digit characters, which this
development keeps out of scope — the one theorem whose truth depends on it
(`c8_year_precedence`, second clause) carries an explicit ASCII hypothesis. -/
def allDigits (cs : List Char) : Bool :=
  !cs.isEmpty && cs.all (fun c => c.isDigit)

/-- Value of a list of decimal digit characters. -/
def digitsVal (cs : List Char) : Nat :=
  cs.foldl (fun acc c => acc * 10 + (c.toNat - 48)) 0

/-- Day count of a month, with Gregorian leap years
(`datetime` calendar validation). -/
def daysInMonth (y m : Nat) : Nat :=
  if m = 2 then
    if y % 4 = 0 ∧ (y % 100 ≠ 0 ∨ y % 400 = 0) then 29 else 28
  else if m = 4 ∨ m = 6 ∨ m = 9 ∨ m = 11 then 30
  else 31

/-- The `%m` pattern of CPython `strptime` — the regex alternation
`1[0-2]|0[1-9]|[1-9]`, first match wins — returning the month and the
unconsumed remainder. -/
def parseMonthPart : List Char → Option (Nat × List Char)
  | [] => none
  | c :: rest =>
    if c = '1' then
      match rest with
      | c2 :: rest2 =>
        if c2 = '0' ∨ c2 = '1' ∨ c2 = '2' then some (10 + (c2.toNat - 48), rest2)
        else some (1, rest)
      | [] => some (1, [])
    else if c = '0' then
      match rest with
      | c2 :: rest2 =>
        if '1' ≤ c2 ∧ c2 ≤ '9' then some (c2.toNat - 48, rest2) else none
      | [] => none
    else if '2' ≤ c ∧ c ≤ '9' then some (c.toNat - 48, rest)
    else none

/-- The `%d` pattern of CPython `strptime` — the regex alternation
`3[0-1]|[1-2]\d|0[1-9]|[1-9]| [1-9]`, first match wins. The final
space-digit alternative can never fire here: the string handed to
`strptime` is the head of `cover_date` before its first space, so it
contains no space. -/
def parseDayPart : List Char → Option (Nat × List Char)
  | [] => none
  | c :: rest =>
    if c = '3' then
      match rest with
      | c2 :: rest2 =>
        if c2 = '0' ∨ c2 = '1' then some (30 + (c2.toNat - 48), rest2)
        else some (3, rest)
      | [] => some (3, [])
    else if c = '1' ∨ c = '2' then
      match rest with
      | c2 :: rest2 =>
        if c2.isDigit then some ((c.toNat - 48) * 10 + (c2.toNat - 48), rest2)
        else some (c.toNat - 48, rest)
      | [] => some (c.toNat - 48, [])
    else if c = '0' then
      match rest with
      | c2 :: rest2 =>
        if '1' ≤ c2 ∧ c2 ≤ '9' then some (c2.toNat - 48, rest2) else none
      | [] => none
    else if '4' ≤ c ∧ c ≤ '9' then some (c.toNat - 48, rest)
    else none

/-- `datetime.strptime(s, '%Y-%m-%d')` for ASCII content: exactly four year
digits (`%Y` is `\d\d\d\d`), a literal dash, the `%m` alternation, a
literal dash, the `%d` alternation, nothing left over (`strptime` raises on
unconverted data), then `datetime`'s calendar validation (year at least 1,
day within the month). Single-digit months and days are accepted, as in
CPython. -/
def parseYMD (s : String) : Option (Nat × Nat × Nat) :=
  match s.data with
  | y1 :: y2 :: y3 :: y4 :: '-' :: rest =>
    if allDigits [y1, y2, y3, y4] then
      match parseMonthPart rest with
      | some (m, '-' :: rest2) =>
        match parseDayPart rest2 with
        | some (d, []) =>
          let y := digitsVal [y1, y2, y3, y4]
          if 1 ≤ y ∧ 1 ≤ d ∧ d ≤ daysInMonth y m then some (y, m, d) else none
        | _ => none
      | _ => none
    else none
  | _ => none

/-- `datetime.strptime(s, '%Y-%m')` restricted to the strings reaching it:
the guard of `tagging.py` line 128 fixes the length at 7 with a dash at
index 4, so the `%m` alternation must consume exactly the last two
characters — a single-digit month would leave one character unconverted and
raise. -/
def parseYM (s : String) : Option (Nat × Nat) :=
  match s.data with
  | [y1, y2, y3, y4, '-', m1, m2] =>
    if allDigits [y1, y2, y3, y4] ∧ allDigits [m1, m2] then
      let y := digitsVal [y1, y2, y3, y4]
      let m := digitsVal [m1, m2]
      if 1 ≤ y ∧ 1 ≤ m ∧ m ≤ 12 then some (y, m) else none
    else none
  | _ => none

/-- The `Year`/`Month`/`Day` strings produced from a truthy `cover_date`
string by lines 118-138 of `tagging.py`; `none` when no recognized format
parses (the warning path, which inserts nothing). -/
def coverDateFields (date_str : String) : Option (String × Option String × Option String) :=
  if date_str.length ≥ 10 ∧ date_str.data.get? 4 = some '-' ∧
      date_str.data.get? 7 = some '-' then
    match parseYMD ((pySplit date_str ' ').headD "") with
    | some (y, m, d) => some (toString y, some (toString m), some (toString d))
    | none => none
  else if date_str.length = 7 ∧ date_str.data.get? 4 = some '-' then
    match parseYM date_str with
    | some (y, m) => some (toString y, some (toString m), none)
    | none => none
  else if date_str.length = 4 ∧ allDigits date_str.data then
    some (date_str, none, none)
  else none

/-- Phase of `map_cv_to_comicinfo_dict` handling `name` and `issue_number`. -/
def phaseTitleNumber (cv : CVIssue) (d : List (String × String)) : List (String × String) :=
  let d := match truthy cv.name with
           | some v => dinsert d "Title" v
           | none => d
  match truthy cv.issue_number with
  | some v => dinsert d "Number" v
  | none => d

/-- Phase handling `aliases` (appended into `Notes`; the `.strip()` binds to
the f-string only). -/
def phaseAliases (cv : CVIssue) (d : List (String × String)) : List (String × String) :=
  match truthy cv.aliases with
  | some a =>
    let aliases_text := strip_html a
    if aliases_text == "" then d
    else dinsert d "Notes" (((dget d "Notes").getD "") ++ pyStrip ("\nAliases:\n" ++ aliases_text))
  | none => d

/-- Phase handling `cover_date` (lines 118-138). -/
def phaseCoverDate (cv : CVIssue) (d : List (String × String)) : List (String × String) :=
  match truthy cv.cover_date with
  | some ds =>
    match coverDateFields ds with
    | some (y, mo, dy) =>
      let d := dinsert d "Year" y
      let d := match mo with
               | some m => dinsert d "Month" m
               | none => d
      match dy with
      | some dd => dinsert d "Day" dd
      | none => d
    | none => d
  | none => d

/-- Phase handling `store_date` (appended into `Notes` when it differs from
`cover_date`; the `.strip()` binds to the f-string only). -/
def phaseStoreDate (cv : CVIssue) (d : List (String × String)) : List (String × String) :=
  match truthy cv.store_date with
  | some sd =>
    if cv.store_date ≠ cv.cover_date then
      dinsert d "Notes" (((dget d "Notes").getD "") ++ pyStrip ("\nStore Date: " ++ sd))
    else d
  | none => d

/-- Phase handling `description` (→ `Summary`). -/
def phaseSummary (cv : CVIssue) (d : List (String × String)) : List (String × String) :=
  match truthy cv.description with
  | some ds => dinsert d "Summary" (strip_html ds)
  | none => d

/-- Phase handling `deck` (appended into `Notes`; here the `.strip()` is on
the whole concatenation). -/
def phaseDeck (cv : CVIssue) (d : List (String × String)) : List (String × String) :=
  match truthy cv.deck with
  | some dk =>
    let deck_text := strip_html dk
    if deck_text == "" then d
    else dinsert d "Notes" (pyStrip (((dget d "Notes").getD "") ++ ("\nDeck (Summary): " ++ deck_text)))
  | none => d

/-- Phase handling `site_detail_url` (→ `Web`). -/
def phaseWeb (cv : CVIssue) (d : List (String × String)) : List (String × String) :=
  match truthy cv.site_detail_url with
  | some u => dinsert d "Web" u
  | none => d

/-- `Series` from `volume.name` (line 157). -/
def volSeries (vol : CVVolume) (d : List (String × String)) : List (String × String) :=
  match truthy vol.name with
  | some v => dinsert d "Series" v
  | none => d

/-- `Publisher` from `volume.publisher.name` (lines 159-160). -/
def volPublisher (vol : CVVolume) (d : List (String × String)) : List (String × String) :=
  match vol.publisher with
  | some pub =>
    match truthy pub.name with
    | some p => dinsert d "Publisher" p
    | none => d
  | none => d

/-- `Count` from `volume.count_of_issues`, inserted whenever the value is
not `None` (lines 162-163). -/
def volCount (vol : CVVolume) (d : List (String × String)) : List (String × String) :=
  match vol.count_of_issues with
  | some c => dinsert d "Count" c
  | none => d

/-- The `start_year` fallback for `Year`, taken only when the issue itself
produced no `Year` (lines 165-166). -/
def volStartYear (vol : CVVolume) (d : List (String × String)) : List (String × String) :=
  match truthy vol.start_year with
  | some sy => if dcontains d "Year" then d else dinsert d "Year" sy
  | none => d

/-- Phase handling the nested `volume` object (lines 155-166). -/
def phaseVolume (cv : CVIssue) (d : List (String × String)) : List (String × String) :=
  match cv.volume with
  | some vol => volStartYear vol (volCount vol (volPublisher vol (volSeries vol d)))
  | none => d

/-- The specific role keyword table `person_roles_map`, in source order. -/
def person_roles_map : List (String × String) :=
  [("writer", "Writer"), ("penciler", "Penciller"), ("inker", "Inker"),
   ("colorist", "Colorist"), ("letterer", "Letterer"), ("cover", "CoverArtist"),
   ("artist", "Artist"), ("editor", "Editor"), ("plotter", "Writer"),
   ("scripter", "Writer")]

/-- The generic art role keywords. -/
def generic_art_roles : List String := ["art", "colors", "letters", "pencils", "inks"]

/-- `temp_credits_by_ci_tag[tag].add(name)` on the insertion-ordered map of
per-tag name sets (a set is modelled as its list of members in first-add
order; the order is irrelevant because the values are sorted before use). -/
def addCredit (temp : List (String × List String)) (tag name : String) :
    List (String × List String) :=
  match temp with
  | [] => [(tag, [name])]
  | (t, ns) :: rest =>
    if t == tag then (t, if ns.contains name then ns else ns ++ [name]) :: rest
    else (t, ns) :: addCredit rest tag name

/-- One iteration of the specific-role keyword loop of lines 189-194: when
the keyword is a substring of the lowered role string, add the person to
that tag's set and record the tag as assigned. -/
def roleStep (roleStr name : String)
    (acc : List (String × List String) × List String) (kv : String × String) :
    List (String × List String) × List String :=
  if strHasSub roleStr kv.1 then (addCredit acc.1 kv.2 name, acc.2 ++ [kv.2]) else acc

/-- Processing of one entry of `person_credits` (lines 182-203): match the
specific role keywords as substrings of the lowered role string, then fall
back to the generic `Artist` bucket when no specific art tag was assigned
and a generic art keyword occurs. -/
def processPerson (temp : List (String × List String)) (p : CVPerson) :
    List (String × List String) :=
  match truthy p.name with
  | none => temp
  | some name =>
    let roleStr := pyLower (p.role.getD "")
    let step := person_roles_map.foldl (roleStep roleStr name) (temp, [])
    let assigned := step.2
    if !(["Penciller", "Inker", "Colorist", "CoverArtist"].any
          (fun t => assigned.contains t)) then
      if generic_art_roles.any (fun g => strHasSub roleStr g) then
        addCredit step.1 "Artist" name
      else step.1
    else step.1

/-- Strict lexicographic comparison of character lists by code point
(Python `str` comparison). -/
def charListLtb : List Char → List Char → Bool
  | [], [] => false
  | [], _ :: _ => true
  | _ :: _, [] => false
  | a :: as, b :: bs =>
    if a.toNat < b.toNat then true
    else if b.toNat < a.toNat then false
    else charListLtb as bs

/-- Python `a < b` on strings. -/
def pyStrLtb (a b : String) : Bool :=
  charListLtb a.data b.data

/-- Python `a <= b` on strings (the order `sorted` produces). -/
def pyStrLe (a b : String) : Prop :=
  pyStrLtb b a = false

instance : DecidableRel pyStrLe :=
  fun a b => inferInstanceAs (Decidable (pyStrLtb b a = false))

/-- `sorted(...)` on a list of strings: Python sorts by Unicode code point,
which is case-sensitive. -/
def sortStrings (l : List String) : List String :=
  l.insertionSort pyStrLe

/-- The accumulated per-tag name sets, `temp_credits_by_ci_tag` in the
source (lines 179-203). -/
def temp_credits_by_ci_tag (cv : CVIssue) : List (String × List String) :=
  cv.person_credits.foldl processPerson []

/-- One iteration of the emission loop of lines 205-206: join each
non-empty name set sorted and comma-separated. -/
def emitCredit (acc : List (String × String)) (p : String × List String) :
    List (String × String) :=
  if p.2.isEmpty then acc
  else dinsert acc p.1 (String.intercalate ", " (sortStrings p.2))

/-- Phase handling `person_credits` (lines 168-206): build the per-tag name
sets, then join each non-empty set sorted and comma-separated. -/
def phaseCredits (cv : CVIssue) (d : List (String × String)) : List (String × String) :=
  (temp_credits_by_ci_tag cv).foldl emitCredit d

/-- `sorted(list(set([item.get('name') for item in items if item.get('name')])))`. -/
def namesOfList (items : List CVNamed) : List String :=
  sortStrings ((items.filterMap (fun i => truthy i.name)).dedup)

/-- `map_generic_credits_list` from `tagging.py` (lines 209-213). -/
def map_generic_credits_list (items : List CVNamed) (comic_info_tag : String)
    (d : List (String × String)) : List (String × String) :=
  if items.isEmpty then d
  else
    let names := namesOfList items
    if names.isEmpty then d
    else dinsert d comic_info_tag (String.intercalate ", " names)

/-- Phase folding `concept_credits` into `Genre` (lines 221-229). -/
def phaseConcepts (cv : CVIssue) (d : List (String × String)) : List (String × String) :=
  let concept_names := if cv.concept_credits.isEmpty then [] else namesOfList cv.concept_credits
  if concept_names.isEmpty then d
  else
    let existing_genre_str := (dget d "Genre").getD ""
    let existing_genre_set :=
      (((pySplit existing_genre_str ',').map pyStrip).filter (fun s => s != "")
        ++ concept_names).dedup
    if existing_genre_set.isEmpty then d
    else dinsert d "Genre" (String.intercalate ", " (sortStrings existing_genre_set))

/-- Phase appending `object_credits` names into `Notes` (lines 231-236). -/
def phaseObjects (cv : CVIssue) (d : List (String × String)) : List (String × String) :=
  let object_names := if cv.object_credits.isEmpty then [] else namesOfList cv.object_credits
  if object_names.isEmpty then d
  else dinsert d "Notes"
    (pyStrip (((dget d "Notes").getD "") ++ ("\nObjects: " ++ String.intercalate ", " object_names)))

/-- The `setdefault` lines 238-239. -/
def phaseDefaults (d : List (String × String)) : List (String × String) :=
  dsetdefault (dsetdefault d "LanguageISO" "en") "Format" "Comic"

/-- The dictionary built by `map_cv_to_comicinfo_dict` before the final
filter. (The `if not cv_issue_data: return {}` guard of the source concerns
an entirely empty response object, which carries no data and is not
distinguished by this record type.) -/
def mapCvPhases (cv : CVIssue) : List (String × String) :=
  phaseDefaults
    (phaseObjects cv
      (phaseConcepts cv
        (map_generic_credits_list cv.story_arc_credits "StoryArc"
          (map_generic_credits_list cv.location_credits "Locations"
            (map_generic_credits_list cv.team_credits "Teams"
              (map_generic_credits_list cv.character_credits "Characters"
                (phaseCredits cv
                  (phaseVolume cv
                    (phaseWeb cv
                      (phaseDeck cv
                        (phaseSummary cv
                          (phaseStoreDate cv
                            (phaseCoverDate cv
                              (phaseAliases cv
                                (phaseTitleNumber cv [])))))))))))))))

/-- `map_cv_to_comicinfo_dict` from `tagging.py`: the phase pipeline
followed by the final non-empty-after-strip filter. -/
def map_cv_to_comicinfo_dict (cv : CVIssue) : List (String × String) :=
  (mapCvPhases cv).filter (fun p => pyStrip p.2 != "")

/-- A ZIP entry: name and byte payload. -/
structure ZEntry where
  name : String
  data : String
deriving DecidableEq

/-- The merge-time scan of `write_comic_info_to_cbz` (lines 291-294): the
first entry name equal to `comicinfo.xml` after lowering. -/
def write_scan_find (names : List String) : Option String :=
  names.find? (fun n => pyLower n == comic_info_filename_lower)

/-- The erase-time scan of `erase_comic_info_from_cbz` (lines 357-361). -/
def erase_scan_found (names : List String) : Bool :=
  names.any (fun n => pyLower n == comic_info_filename_lower)

/-- The inspect-path membership test of `read_comic_info_from_archive`
(`inspect_files.py` line 32): `comic_info_filename not in zf.namelist()`
is an exact, case-sensitive membership test. -/
def inspect_finds_entry (names : List String) : Bool :=
  names.contains comic_info_filename

/-- Value shape stored by `read_comic_info_from_archive`: a plain string or
a list split on commas. -/
inductive CIValue where
  | str (v : String)
  | strs (vs : List String)
deriving DecidableEq

/-- The tags the reader treats as comma-separated lists. -/
def known_list_tags : List String :=
  ["Writer", "Penciller", "Inker", "Colorist", "Letterer", "CoverArtist",
   "Editor", "Artist", "Genre", "Characters", "Teams", "Locations", "StoryArc"]

/-- Python `dict[k] = v` for the reader's dictionary. -/
def ciInsert (d : List (String × CIValue)) (k : String) (v : CIValue) :
    List (String × CIValue) :=
  if d.any (fun p => p.1 == k) then d.map (fun p => if p.1 == k then (k, v) else p)
  else d ++ [(k, v)]

/-- The dictionary built by `read_comic_info_from_archive` from the parsed
children of the metadata entry (`inspect_files.py` lines 40-65). -/
def readComicInfoDict (children : List (String × String)) : List (String × CIValue) :=
  children.foldl
    (fun acc c =>
      let text := pyStrip c.2
      if text == "" then acc
      else if known_list_tags.contains c.1 then
        let items := ((pySplit text ',').map pyStrip).filter (fun s => s != "")
        if items.length > 1 then ciInsert acc c.1 (.strs items)
        else ciInsert acc c.1 (.str text)
      else ciInsert acc c.1 (.str text))
    []

/-- Byte image of one stored ZIP entry (the encoding is an arbitrary fixed
injective framing; only equality of byte images matters to the claims). -/
def encodeEntry (e : ZEntry) : String :=
  "<" ++ e.name ++ "|" ++ e.data ++ ">"

/-- Byte image of a ZIP container as the concatenation of its entries. -/
def encodeZip (l : List ZEntry) : String :=
  String.join (l.map encodeEntry)

/-- The entry list staged into the temporary container by
`write_comic_info_to_cbz` (lines 328-335): every entry whose lowered name
differs from the reserved name is copied in order, then the new
`ComicInfo.xml` is written last under the standard name. -/
def stagedEntries (entries : List ZEntry) (xml : String) : List ZEntry :=
  entries.filter (fun e => pyLower e.name != comic_info_filename_lower) ++
    [⟨comic_info_filename, xml⟩]

/-- The entry list staged by `erase_comic_info_from_cbz` (lines 370-374):
the same copy loop without writing the metadata entry. -/
def erasedEntries (entries : List ZEntry) : List ZEntry :=
  entries.filter (fun e => pyLower e.name != comic_info_filename_lower)

/-- State of the two files touched by a rewrite: the archive's byte content
and the byte content of the temporary file when one exists. -/
structure FileState where
  origBytes : String
  temp : Option String
deriving DecidableEq

/-- Injected failure point of a rewrite operation.
`stage k` fails after `k` entries were staged into the temporary file;
`move j` fails during `shutil.move` — before any change when the move is a
same-filesystem `os.rename`, after `j` bytes of the temporary file were
copied over the destination when the move degraded to a cross-filesystem
copy-then-delete. -/
inductive FailPoint where
  | readExisting
  | mkstemp
  | stage (k : Nat)
  | move (j : Nat)
deriving DecidableEq

/-- File-system behaviour of `write_comic_info_to_cbz` (lines 283-347):
returns the boolean result, the final state after the `finally` cleanup,
and the sequence of reachable intermediate states. `sameFs` tells whether
the `tempfile.mkstemp` file lives on the same filesystem as the archive,
which decides whether `shutil.move` is an atomic `os.rename` or a
copy-then-delete. -/
def write_comic_info_to_cbz (entries : List ZEntry) (xml : String)
    (sameFs : Bool) (fail : Option FailPoint) : Bool × FileState × List FileState :=
  let origB := encodeZip entries
  let stagedB := encodeZip (stagedEntries entries xml)
  let init : FileState := ⟨origB, none⟩
  match fail with
  | some .readExisting => (false, init, [init])
  | some .mkstemp => (false, init, [init])
  | some (.stage k) =>
    (false, init,
      [init, ⟨origB, some ""⟩,
       ⟨origB, some (encodeZip ((stagedEntries entries xml).take k))⟩, init])
  | some (.move j) =>
    if sameFs then
      (false, init, [init, ⟨origB, some ""⟩, ⟨origB, some stagedB⟩, init])
    else
      (false, ⟨pyTake stagedB j, none⟩,
        [init, ⟨origB, some ""⟩, ⟨origB, some stagedB⟩,
         ⟨pyTake stagedB j, some stagedB⟩, ⟨pyTake stagedB j, none⟩])
  | none =>
    (true, ⟨stagedB, none⟩,
      [init, ⟨origB, some ""⟩, ⟨origB, some stagedB⟩, ⟨stagedB, none⟩])

/-- File-system behaviour of `erase_comic_info_from_cbz` (lines 349-382):
the check phase scans the entry list case-insensitively and returns `True`
without any rewrite when no metadata entry exists; otherwise the same
stage-then-move path runs with the metadata entry omitted. -/
def erase_comic_info_from_cbz (entries : List ZEntry)
    (sameFs : Bool) (fail : Option FailPoint) : Bool × FileState × List FileState :=
  let origB := encodeZip entries
  let erasedB := encodeZip (erasedEntries entries)
  let init : FileState := ⟨origB, none⟩
  if fail = some .readExisting then (false, init, [init])
  else if !(erase_scan_found (entries.map (fun e => e.name))) then (true, init, [init])
  else
    match fail with
    | some .mkstemp => (false, init, [init])
    | some (.stage k) =>
      (false, init,
        [init, ⟨origB, some ""⟩,
         ⟨origB, some (encodeZip ((erasedEntries entries).take k))⟩, init])
    | some (.move j) =>
      if sameFs then
        (false, init, [init, ⟨origB, some ""⟩, ⟨origB, some erasedB⟩, init])
      else
        (false, ⟨pyTake erasedB j, none⟩,
          [init, ⟨origB, some ""⟩, ⟨origB, some erasedB⟩,
           ⟨pyTake erasedB j, some erasedB⟩, ⟨pyTake erasedB j, none⟩])
    | _ =>
      (true, ⟨erasedB, none⟩,
        [init, ⟨origB, some ""⟩, ⟨origB, some erasedB⟩, ⟨erasedB, none⟩])

/-- Python `dict` deletion restricted to a key filter (helper for stating
field omission). -/
def dremove (d : List (String × String)) (k : String) : List (String × String) :=
  d.filter (fun p => p.1 != k)

/-- Modelled from the spec: sanitization of the Filename Deriver (§4.2),
which is not present under `src/`; characters illegal in filenames are
stripped. -/
def sanitizeFilename (s : String) : String :=
  String.mk (s.data.filter
    (fun c => !(['/', '\\', ':', '*', '?', '"', '<', '>', '|'].contains c)))

/-- Modelled from the spec: zero-padding of a whole issue number to three
digits (§4.2). -/
def padNumber3 (n : String) : String :=
  if n.length ≥ 3 then n else String.mk (List.replicate (3 - n.length) '0') ++ n

/-- Modelled from the spec: the `#<Number>` part (§4.2) — zero-padded to 3
digits when the number is a whole number, else the sanitized literal. -/
def numberPart (n : String) : String :=
  if allDigits n.data then "#" ++ padNumber3 n else "#" ++ sanitizeFilename n

/-- Modelled from the spec: is the Title a redundant restatement of Series
or of `"#<Number>"`/`"Issue #<Number>"`, compared case-insensitively (§4.2)? -/
def titleIsRedundant (rec : List (String × String)) (t : String) : Bool :=
  (match truthy (dget rec "Series") with
   | some s => pyLower t == pyLower s
   | none => false) ||
  (match truthy (dget rec "Number") with
   | some n => pyLower t == pyLower ("#" ++ n) || pyLower t == pyLower ("Issue #" ++ n)
   | none => false)

/-- Modelled from the spec: the parts of the derived base name in their
fixed order (§4.2); absent parts are `none`. -/
def filenameParts (rec : List (String × String)) : List (Option String) :=
  [(truthy (dget rec "Series")).map sanitizeFilename,
   (truthy (dget rec "Volume")).map (fun v => "V" ++ sanitizeFilename v),
   (truthy (dget rec "Number")).map numberPart,
   (truthy (dget rec "Year")).map (fun y => "(" ++ y ++ ")"),
   match truthy (dget rec "Title") with
   | some t => if titleIsRedundant rec t then none else some ("- " ++ sanitizeFilename t)
   | none => none]

/-- Modelled from the spec: the Filename Deriver `deriveFilename(record,
originalExtension)` of §4.2, which is not present under `src/` (only the
orchestration that would call it). The present parts are joined in fixed
order; with no parts, no suggestion is returned. -/
def deriveFilename (rec : List (String × String)) (originalExtension : String) :
    Option String :=
  if ((filenameParts rec).filterMap id).isEmpty then none
  else some (String.intercalate " " ((filenameParts rec).filterMap id) ++ originalExtension)

/-- The source record of the spec's example scenario (§8). -/
def watchmenCV : CVIssue :=
  { name := some "Watchmen #1", issue_number := some "1",
    cover_date := some "1986-09-01",
    volume := some { name := some "Watchmen",
                     publisher := some { name := some "DC Comics" },
                     start_year := some "1986" } }

/-- The record `map_cv_to_comicinfo_dict` produces for the example scenario:
the seven listed fields plus the two defaults of lines 238-239. -/
def watchmenRecord : List (String × String) :=
  [("Title", "Watchmen #1"), ("Number", "1"), ("Year", "1986"), ("Month", "9"),
   ("Day", "1"), ("Series", "Watchmen"), ("Publisher", "DC Comics"),
   ("LanguageISO", "en"), ("Format", "Comic")]

/-- The `Year`/`Month`/`Day` strings the cover-date phase would insert for
this issue: `none` when `cover_date` is falsy or parses under no recognized
format. -/
def issueYearFields (cv : CVIssue) : Option (String × Option String × Option String) :=
  match truthy cv.cover_date with
  | some ds => coverDateFields ds
  | none => none

/-- The canonical credit tags the credits phase can emit. -/
def credit_tags : List String :=
  ["Writer", "Penciller", "Inker", "Colorist", "Letterer", "CoverArtist",
   "Artist", "Editor"]

/-- A concrete issue exercising contributors, characters and concepts, used
by the C7 witness. -/
def creditsSampleCV : CVIssue :=
  { person_credits := [{ name := some "Alan Moore", role := some "writer" },
                       { name := some "Dave Gibbons", role := some "artist, cover" }],
    character_credits := [⟨some "Rorschach"⟩, ⟨some "Dr. Manhattan"⟩, ⟨some "Rorschach"⟩],
    concept_credits := [⟨some "Superhero"⟩] }

/-! ## Association-list dictionary lemmas -/

theorem dget_cons (p : String × String) (d : List (String × String)) (k : String) :
    dget (p :: d) k = if p.1 = k then some p.2 else dget d k := by
  by_cases h : p.1 = k
  · simp [dget, List.find?_cons_of_pos, h]
  · simp [dget, List.find?_cons_of_neg, h]

theorem dcontains_cons (p : String × String) (d : List (String × String)) (k : String) :
    dcontains (p :: d) k = (p.1 == k || dcontains d k) := by
  simp [dcontains]

theorem dget_append (d₁ d₂ : List (String × String)) (k : String) :
    dget (d₁ ++ d₂) k = ((dget d₁ k).orElse (fun _ => dget d₂ k)) := by
  induction d₁ with
  | nil => simp [dget]
  | cons p rest ih =>
    by_cases h : p.1 = k
    · simp [dget_cons, h, Option.orElse]
    · simp only [List.cons_append, dget_cons, h, if_false, ih]

theorem dget_none_of_dcontains_false {d : List (String × String)} {k : String}
    (h : dcontains d k = false) : dget d k = none := by
  induction d with
  | nil => rfl
  | cons p rest ih =>
    rw [dcontains_cons, Bool.or_eq_false_iff] at h
    rw [dget_cons, if_neg (by simpa using h.1)]
    exact ih h.2

theorem dcontains_iff_mem {d : List (String × String)} {k : String} :
    dcontains d k = true ↔ k ∈ d.map Prod.fst := by
  induction d with
  | nil => simp [dcontains]
  | cons p rest ih =>
    rw [dcontains_cons, List.map_cons]
    by_cases he : p.1 = k
    · simp [he]
    · simp [he, Ne.symm he, ih]

theorem dget_mem {d : List (String × String)} {k v : String}
    (h : dget d k = some v) : (k, v) ∈ d := by
  induction d with
  | nil => simp [dget] at h
  | cons p rest ih =>
    rw [dget_cons] at h
    by_cases he : p.1 = k
    · rw [if_pos he, Option.some.injEq] at h
      have hp : p = (k, v) := by
        cases p with
        | mk a b =>
          simp only at he h
          rw [he, h]
      rw [hp] at *
      exact List.mem_cons_self _ _
    · rw [if_neg he] at h
      exact List.mem_cons_of_mem _ (ih h)

theorem dget_isSome_iff {d : List (String × String)} {k : String} :
    (dget d k).isSome = true ↔ k ∈ d.map Prod.fst := by
  induction d with
  | nil => simp [dget]
  | cons p rest ih =>
    rw [dget_cons]
    by_cases he : p.1 = k
    · simp [he]
    · simp [he, ih, Ne.symm he]

theorem dget_map_replace_self {k v : String} {d : List (String × String)}
    (hc : dcontains d k = true) :
    dget (d.map (fun p => if p.1 == k then (k, v) else p)) k = some v := by
  induction d with
  | nil => simp [dcontains] at hc
  | cons p rest ih =>
    simp only [List.map_cons]
    cases hb : (p.1 == k) with
    | true =>
      rw [if_pos rfl, dget_cons, if_pos rfl]
    | false =>
      rw [dcontains_cons, hb, Bool.false_or] at hc
      simp only [Bool.false_eq_true, if_false, dget_cons, if_neg (by simpa using hb)]
      exact ih hc

theorem dget_dinsert_self (d : List (String × String)) (k v : String) :
    dget (dinsert d k v) k = some v := by
  unfold dinsert
  by_cases hc : dcontains d k
  · rw [if_pos hc]
    exact dget_map_replace_self hc
  · rw [if_neg hc, dget_append,
      dget_none_of_dcontains_false (by simpa using hc)]
    simp [Option.orElse, dget_cons]

theorem dget_map_replace_ne {k v k' : String} (h : k' ≠ k) (d : List (String × String)) :
    dget (d.map (fun p => if p.1 == k then (k, v) else p)) k' = dget d k' := by
  induction d with
  | nil => rfl
  | cons p rest ih =>
    simp only [List.map_cons]
    cases hb : (p.1 == k) with
    | true =>
      have he : p.1 = k := by simpa using hb
      rw [if_pos rfl, dget_cons, dget_cons, if_neg (Ne.symm h), if_neg (he ▸ Ne.symm h)]
      exact ih
    | false =>
      simp only [Bool.false_eq_true, if_false, dget_cons]
      by_cases he' : p.1 = k'
      · simp [he']
      · simp only [he', if_false]
        exact ih

theorem dget_dinsert_ne (d : List (String × String)) (k v k' : String) (h : k' ≠ k) :
    dget (dinsert d k v) k' = dget d k' := by
  unfold dinsert
  by_cases hc : dcontains d k
  · simp only [hc, if_true]
    exact dget_map_replace_ne h d
  · simp only [hc, Bool.false_eq_true, if_false, dget_append]
    cases hg : dget d k'
    · simp [Option.orElse, dget_cons, Ne.symm h, dget]
    · simp [Option.orElse]

theorem dget_dsetdefault_ne (d : List (String × String)) (k v k' : String) (h : k' ≠ k) :
    dget (dsetdefault d k v) k' = dget d k' := by
  unfold dsetdefault
  by_cases hc : dcontains d k
  · simp [hc]
  · simp only [hc, Bool.false_eq_true, if_false, dget_append]
    cases hg : dget d k'
    · simp [Option.orElse, dget_cons, Ne.symm h, dget]
    · simp [Option.orElse]

theorem dget_filter {d : List (String × String)} {k v : String}
    {p : String × String → Bool}
    (h : dget d k = some v) (hp : p (k, v) = true) : dget (d.filter p) k = some v := by
  induction d with
  | nil => simp [dget] at h
  | cons q rest ih =>
    rw [dget_cons] at h
    by_cases he : q.1 = k
    · simp only [he, if_true, Option.some.injEq] at h
      have hq : q = (k, v) := by cases q; simp_all
      subst hq
      simp [List.filter_cons, hp, dget_cons]
    · simp only [he, if_false] at h
      rw [List.filter_cons]
      by_cases hpq : p q
      · simp [hpq, dget_cons, he, ih h]
      · simp [hpq, ih h]

theorem dget_eq_of_mem_nodup {d : List (String × String)} {k v : String}
    (hnd : (d.map Prod.fst).Nodup) (hm : (k, v) ∈ d) : dget d k = some v := by
  induction d with
  | nil => simp at hm
  | cons p rest ih =>
    rcases List.mem_cons.mp hm with h1 | h2
    · subst h1; simp [dget_cons]
    · have hne : p.1 ≠ k := by
        intro he
        have : k ∈ rest.map Prod.fst := List.mem_map.mpr ⟨(k, v), h2, rfl⟩
        rw [List.map_cons, List.nodup_cons] at hnd
        exact hnd.1 (he ▸ this)
      rw [dget_cons, if_neg hne]
      exact ih (by rw [List.map_cons, List.nodup_cons] at hnd; exact hnd.2) h2

/-! ## Merge-loop lemmas -/

theorem dget_setFirstText_self {cs : List (String × String)} {tag v : String}
    (hc : dcontains cs tag = true) : dget (setFirstText cs tag v) tag = some v := by
  induction cs with
  | nil => simp [dcontains] at hc
  | cons c rest ih =>
    rw [setFirstText]
    cases hb : (c.1 == tag) with
    | true =>
      rw [if_pos rfl, dget_cons, if_pos (by simpa using hb)]
    | false =>
      rw [dcontains_cons, hb, Bool.false_or] at hc
      simp only [Bool.false_eq_true, if_false, dget_cons, if_neg (by simpa using hb)]
      exact ih hc

theorem dget_setFirstText_ne {cs : List (String × String)} {tag v k : String}
    (h : k ≠ tag) : dget (setFirstText cs tag v) k = dget cs k := by
  induction cs with
  | nil => rfl
  | cons c rest ih =>
    rw [setFirstText]
    cases hb : (c.1 == tag) with
    | true =>
      have he : c.1 = tag := by simpa using hb
      have hck : ¬c.1 = k := fun hx => h (hx ▸ he)
      rw [if_pos rfl, dget_cons, dget_cons, if_neg hck, if_neg hck]
    | false =>
      simp only [Bool.false_eq_true, if_false, dget_cons]
      by_cases he' : c.1 = k
      · simp [he']
      · simp only [he', if_false]
        exact ih

theorem dget_mergeField_self {cs : List (String × String)} {tag v : String} :
    dget (mergeField cs tag v) tag = some v := by
  unfold mergeField
  by_cases hc : dcontains cs tag
  · rw [if_pos hc]
    exact dget_setFirstText_self hc
  · rw [if_neg hc, dget_append, dget_none_of_dcontains_false (by simpa using hc)]
    simp [Option.orElse, dget_cons]

theorem dget_mergeField_ne {cs : List (String × String)} {tag v k : String}
    (h : k ≠ tag) : dget (mergeField cs tag v) k = dget cs k := by
  unfold mergeField
  by_cases hc : dcontains cs tag
  · rw [if_pos hc]
    exact dget_setFirstText_ne h
  · rw [if_neg hc, dget_append]
    cases hg : dget cs k
    · simp [Option.orElse, dget_cons, Ne.symm h, dget]
    · simp [Option.orElse]

theorem dget_mergeChildren_not_mem {r : List (String × String)} {k : String}
    (h : k ∉ r.map Prod.fst) :
    ∀ cs, dget (mergeChildren cs r) k = dget cs k := by
  induction r with
  | nil => intro cs; rfl
  | cons p rest ih =>
    intro cs
    have hk : k ≠ p.1 := by
      intro he; exact h (by simp [he])
    have hrest : k ∉ rest.map Prod.fst := by
      intro hm; exact h (by simp [hm])
    show dget (mergeChildren (if pyStrip p.2 == "" then cs else mergeField cs p.1 p.2) rest) k
        = dget cs k
    by_cases hs : pyStrip p.2 == ""
    · rw [if_pos hs]
      exact ih hrest cs
    · rw [if_neg hs, ih hrest, dget_mergeField_ne hk]

theorem dget_mergeChildren_mem {r : List (String × String)} {t v : String}
    (hnd : (r.map Prod.fst).Nodup) (hm : (t, v) ∈ r) (hv : ¬(pyStrip v == "")) :
    ∀ cs, dget (mergeChildren cs r) t = some v := by
  induction r with
  | nil => simp at hm
  | cons p rest ih =>
    intro cs
    rcases List.mem_cons.mp hm with h1 | h2
    · have hrest : t ∉ rest.map Prod.fst := by
        rw [List.map_cons, List.nodup_cons] at hnd
        simpa [← h1] using hnd.1
      show dget (mergeChildren (if pyStrip p.2 == "" then cs else mergeField cs p.1 p.2) rest) t
          = some v
      rw [← h1]
      simp only [if_neg hv]
      rw [dget_mergeChildren_not_mem hrest, dget_mergeField_self]
    · have hnd' : (rest.map Prod.fst).Nodup := by
        rw [List.map_cons, List.nodup_cons] at hnd; exact hnd.2
      exact ih hnd' h2 _

theorem setFirstText_eq_self {cs : List (String × String)} {tag v : String}
    (h : dget cs tag = some v) : setFirstText cs tag v = cs := by
  induction cs with
  | nil => rfl
  | cons c rest ih =>
    rw [setFirstText]
    cases hb : (c.1 == tag) with
    | true =>
      have he : c.1 = tag := by simpa using hb
      rw [dget_cons, if_pos he, Option.some.injEq] at h
      rw [if_pos rfl, ← h]
    | false =>
      rw [dget_cons, if_neg (by simpa using hb)] at h
      simp only [Bool.false_eq_true, if_false]
      rw [ih h]

theorem mergeField_eq_self {cs : List (String × String)} {tag v : String}
    (h : dget cs tag = some v) : mergeField cs tag v = cs := by
  have hc : dcontains cs tag = true := by
    rw [dcontains_iff_mem, ← dget_isSome_iff, h]
    rfl
  unfold mergeField
  rw [if_pos hc]
  exact setFirstText_eq_self h

/-- All non-empty fields of the record `r` already hold in the children `cs`. -/
def MergeSatisfied (cs r : List (String × String)) : Prop :=
  ∀ p ∈ r, ¬(pyStrip p.2 == "") → dget cs p.1 = some p.2

theorem mergeChildren_eq_self {r : List (String × String)} :
    ∀ {cs}, MergeSatisfied cs r → mergeChildren cs r = cs := by
  induction r with
  | nil => intro cs _; rfl
  | cons p rest ih =>
    intro cs h
    show mergeChildren (if pyStrip p.2 == "" then cs else mergeField cs p.1 p.2) rest = cs
    by_cases hs : pyStrip p.2 == ""
    · rw [if_pos hs]
      exact ih (fun q hq => h q (List.mem_cons_of_mem _ hq))
    · rw [if_neg hs, mergeField_eq_self (h p (List.mem_cons_self _ _) hs)]
      exact ih (fun q hq => h q (List.mem_cons_of_mem _ hq))

theorem mergeChildren_satisfied {r : List (String × String)}
    (hnd : (r.map Prod.fst).Nodup) (cs : List (String × String)) :
    MergeSatisfied (mergeChildren cs r) r := by
  intro p hp hs
  exact dget_mergeChildren_mem hnd (by simpa using hp) hs cs

theorem mergeChildren_idem {r cs : List (String × String)}
    (hnd : (r.map Prod.fst).Nodup) :
    mergeChildren (mergeChildren cs r) r = mergeChildren cs r :=
  mergeChildren_eq_self (mergeChildren_satisfied hnd cs)

/-! ## `create_comic_info_xml_element` lemmas -/

theorem dget_filterMap_tags (r : List (String × String)) (ts : List String) (t : String) :
    dget (ts.filterMap (fun u => (dget r u).map (fun v => (u, v)))) t =
      if t ∈ ts then dget r t else none := by
  induction ts with
  | nil => simp [dget]
  | cons u rest ih =>
    rw [List.filterMap_cons]
    cases hg : dget r u with
    | none =>
      simp only [Option.map_none']
      rw [ih]
      by_cases he : t = u
      · subst he
        by_cases hr : t ∈ rest
        · simp [hr, hg, List.mem_cons]
        · simp [hr, hg, List.mem_cons]
      · simp [List.mem_cons, he]
    | some w =>
      simp only [Option.map_some']
      rw [dget_cons]
      by_cases he : u = t
      · subst he
        simp [hg]
      · simp only [he, if_false, ih]
        simp [Ne.symm he]

theorem dget_filter_not_tags (r : List (String × String)) (ts : List String) (t : String) :
    dget (r.filter (fun p => !(ts.contains p.1))) t =
      if t ∈ ts then none else dget r t := by
  induction r with
  | nil => simp [dget]
  | cons p rest ih =>
    rw [List.filter_cons]
    by_cases hm : p.1 ∈ ts
    · have : (!(ts.contains p.1)) = false := by simpa using hm
      rw [this]
      simp only [Bool.false_eq_true, if_false, ih]
      by_cases he : t ∈ ts
      · simp [he]
      · have hne : ¬p.1 = t := fun hx => he (hx ▸ hm)
        simp [he, dget_cons, hne]
    · have : (!(ts.contains p.1)) = true := by simpa using hm
      rw [this, if_pos rfl, dget_cons, dget_cons]
      by_cases he : p.1 = t
      · subst he
        simp [hm]
      · simp only [he, if_false, ih]

theorem dget_create_eq (r : List (String × String)) (t : String) :
    dget (create_comic_info_children r) t = dget r t := by
  unfold create_comic_info_children
  rw [dget_append, dget_filterMap_tags, dget_filter_not_tags]
  by_cases hto : t ∈ tag_order
  · by_cases hc : dcontains r t
    · have hs : (dget r t).isSome := by
        rw [dget_isSome_iff]
        exact dcontains_iff_mem.mp hc
      rw [if_pos hto]
      cases hg : dget r t with
      | none => rw [hg] at hs; simp at hs
      | some w => simp [Option.orElse]
    · have hg : dget r t = none := dget_none_of_dcontains_false (by simpa using hc)
      have hnp : t ∉ tag_order.filter (fun u => dcontains r u) := by
        intro hmem
        rw [List.mem_filter] at hmem
        rw [hmem.2] at hc
        exact hc rfl
      rw [if_pos hto, hg, if_neg hnp]
      simp [Option.orElse, hg]
  · have hnp : t ∉ tag_order.filter (fun u => dcontains r u) := by
      intro hmem
      exact hto (List.mem_filter.mp hmem).1
    rw [if_neg hto, if_neg hnp]
    cases hg : dget r t <;> simp [Option.orElse]

theorem mem_keys_create {r : List (String × String)} {t : String} :
    t ∈ (create_comic_info_children r).map Prod.fst ↔ t ∈ r.map Prod.fst := by
  rw [← dget_isSome_iff, ← dget_isSome_iff, dget_create_eq]

theorem setFirstText_length (cs : List (String × String)) (tag v : String) :
    (setFirstText cs tag v).length = cs.length := by
  induction cs with
  | nil => rfl
  | cons c rest ih =>
    rw [setFirstText]
    cases hb : (c.1 == tag) with
    | true => simp
    | false => simp [ih]

theorem mergeChildren_length_ge (r : List (String × String)) :
    ∀ cs, cs.length ≤ (mergeChildren cs r).length := by
  induction r with
  | nil => intro cs; exact Nat.le_refl _
  | cons p rest ih =>
    intro cs
    show cs.length ≤
      (mergeChildren (if pyStrip p.2 == "" then cs else mergeField cs p.1 p.2) rest).length
    by_cases hs : pyStrip p.2 == ""
    · rw [if_pos hs]; exact ih cs
    · rw [if_neg hs]
      refine Nat.le_trans ?_ (ih _)
      unfold mergeField
      by_cases hc : dcontains cs p.1
      · rw [if_pos hc, setFirstText_length]
      · rw [if_neg hc, List.length_append]
        omega

theorem mergeChildren_isEmpty_false {cs r : List (String × String)}
    (h : cs.isEmpty = false) : (mergeChildren cs r).isEmpty = false := by
  have h1 : 0 < cs.length := by
    cases cs
    · simp at h
    · simp
  have h2 : 0 < (mergeChildren cs r).length := Nat.lt_of_lt_of_le h1 (mergeChildren_length_ge r cs)
  cases hm : mergeChildren cs r
  · rw [hm] at h2; simp at h2
  · simp

theorem finalXmlRoot_merge (doc : XmlDoc) (r : List (String × String))
    (h : doc.children.isEmpty = false) :
    finalXmlRoot (.parsed doc) r false =
      { doc with children := mergeChildren doc.children r } := by
  unfold finalXmlRoot
  rw [if_neg (by simp)]
  show (if doc.children.isEmpty = true then create_comic_info_xml_element r
    else { attrs := doc.attrs, children := mergeChildren doc.children r }) =
    { attrs := doc.attrs, children := mergeChildren doc.children r }
  rw [h]
  simp

theorem finalXmlRoot_overwrite (ex : ExistingEntry) (r : List (String × String)) :
    finalXmlRoot ex r true = create_comic_info_xml_element r := by
  unfold finalXmlRoot
  rw [if_pos rfl]

/-! ## Claim theorems -/

/-- C2: for an archive whose existing metadata entry parses to `doc` and maps
field `A` to `x`, and a new record `r` (unique keys) that does not mention
`A`, the merge-mode write (`overwrite_all = false`) yields an entry that
still maps `A` to `x` and maps every field of `r` with a non-empty trimmed
value to its new value. -/
theorem c2_merge_preserves_untouched_fields
    (doc : XmlDoc) (r : List (String × String)) (A x : String)
    (hA : dget doc.children A = some x)
    (hAnotin : A ∉ r.map Prod.fst)
    (hnd : (r.map Prod.fst).Nodup) :
    dget (finalXmlRoot (.parsed doc) r false).children A = some x ∧
    ∀ B y, (B, y) ∈ r → ¬(pyStrip y == "") →
      dget (finalXmlRoot (.parsed doc) r false).children B = some y := by
  have hne : doc.children.isEmpty = false := by
    cases hcs : doc.children
    · rw [hcs] at hA
      simp [dget] at hA
    · simp
  rw [finalXmlRoot_merge doc r hne]
  constructor
  · rw [dget_mergeChildren_not_mem hAnotin]
    exact hA
  · intro B y hm hy
    exact dget_mergeChildren_mem hnd hm hy doc.children

/-- Witness for C2 at a concrete archive and record. -/
theorem c2_witness :
    dget (finalXmlRoot (.parsed ⟨[], [("Series", "Watchmen")]⟩)
      [("Title", "Issue 1")] false).children "Series" = some "Watchmen" ∧
    dget (finalXmlRoot (.parsed ⟨[], [("Series", "Watchmen")]⟩)
      [("Title", "Issue 1")] false).children "Title" = some "Issue 1" := by
  have h := c2_merge_preserves_untouched_fields
    ⟨[], [("Series", "Watchmen")]⟩ [("Title", "Issue 1")] "Series" "Watchmen"
    (by decide) (by decide) (by decide)
  exact ⟨h.1, h.2 "Title" "Issue 1" (by decide) (by decide)⟩

/-- C3: an overwrite-mode write (`overwrite_all = true`) produces a metadata
entry whose field set is exactly the field set of the new record, whatever
entry existed before. -/
theorem c3_overwrite_discards_prior_state
    (ex : ExistingEntry) (r : List (String × String)) (t : String) :
    t ∈ (finalXmlRoot ex r true).children.map Prod.fst ↔ t ∈ r.map Prod.fst := by
  rw [finalXmlRoot_overwrite]
  exact mem_keys_create

/-- Witness for C3: with a prior entry holding `A` and a new record holding
only `B`, the overwritten entry has `B` and has no `A`. -/
theorem c3_witness :
    ("B" ∈ (finalXmlRoot (.parsed ⟨[], [("A", "x")]⟩) [("B", "y")] true).children.map
        Prod.fst) ∧
    ¬("A" ∈ (finalXmlRoot (.parsed ⟨[], [("A", "x")]⟩) [("B", "y")] true).children.map
        Prod.fst) := by
  constructor
  · exact (c3_overwrite_discards_prior_state (.parsed ⟨[], [("A", "x")]⟩)
      [("B", "y")] "B").mpr (by decide)
  · intro hmem
    have := (c3_overwrite_discards_prior_state (.parsed ⟨[], [("A", "x")]⟩)
      [("B", "y")] "A").mp hmem
    revert this
    decide

theorem finalXmlRoot_parsed_empty {doc : XmlDoc} (r : List (String × String))
    (h : doc.children.isEmpty = true) :
    finalXmlRoot (.parsed doc) r false = create_comic_info_xml_element r := by
  unfold finalXmlRoot
  rw [if_neg (by simp)]
  show (if doc.children.isEmpty = true then create_comic_info_xml_element r
    else { attrs := doc.attrs, children := mergeChildren doc.children r }) =
    create_comic_info_xml_element r
  rw [h]
  simp

theorem finalXmlRoot_absent (r : List (String × String)) :
    finalXmlRoot .absent r false = create_comic_info_xml_element r := rfl

theorem finalXmlRoot_corrupted (r : List (String × String)) :
    finalXmlRoot .corrupted r false = create_comic_info_xml_element r := rfl

theorem create_satisfied {r : List (String × String)}
    (hnd : (r.map Prod.fst).Nodup) :
    MergeSatisfied (create_comic_info_children r) r := by
  intro p hp _
  rw [dget_create_eq]
  exact dget_eq_of_mem_nodup hnd (by cases p; simpa using hp)

theorem reparsed_create (r : List (String × String)) :
    reparsedDoc (create_comic_info_xml_element r) =
      { attrs := [], children := create_comic_info_children r } := rfl

theorem secondWrite_children_of_create {r : List (String × String)}
    (hnd : (r.map Prod.fst).Nodup) :
    (finalXmlRoot (.parsed (reparsedDoc (create_comic_info_xml_element r))) r false).children =
      create_comic_info_children r := by
  rw [reparsed_create]
  by_cases hC : (create_comic_info_children r).isEmpty = true
  · rw [finalXmlRoot_parsed_empty r (by simpa using hC)]
    rfl
  · rw [finalXmlRoot_merge _ r (by simpa using hC)]
    exact mergeChildren_eq_self (create_satisfied hnd)

theorem secondWrite_children_eq (ex : ExistingEntry) (r : List (String × String))
    (m : Bool) (hnd : (r.map Prod.fst).Nodup) :
    (finalXmlRoot (.parsed (reparsedDoc (finalXmlRoot ex r m))) r m).children =
      (finalXmlRoot ex r m).children := by
  cases m with
  | true => rw [finalXmlRoot_overwrite, finalXmlRoot_overwrite]
  | false =>
    cases ex with
    | parsed doc =>
      by_cases hne : doc.children.isEmpty = false
      · rw [finalXmlRoot_merge doc r hne]
        have hM : (mergeChildren doc.children r).isEmpty = false :=
          mergeChildren_isEmpty_false hne
        rw [show reparsedDoc { attrs := doc.attrs, children := mergeChildren doc.children r } =
            ({ attrs := doc.attrs.filter (fun a => !(isXmlnsAttr a.1)),
               children := mergeChildren doc.children r } : XmlDoc) from rfl]
        rw [finalXmlRoot_merge _ r hM]
        exact mergeChildren_idem hnd
      · have hemp : doc.children.isEmpty = true := by simpa using hne
        rw [finalXmlRoot_parsed_empty r hemp]
        exact secondWrite_children_of_create hnd
    | absent =>
      rw [finalXmlRoot_absent]
      exact secondWrite_children_of_create hnd
    | corrupted =>
      rw [finalXmlRoot_corrupted]
      exact secondWrite_children_of_create hnd

/-- C4 fails as stated: tagging twice with the identical record and merge
mode is not byte-identical when the first write created a fresh entry — the
fresh entry carries `xmlns:xsi`/`xmlns:xsd` declarations on its root which
`ET.parse` consumes, so the second write serializes without them. Concrete
input: record `{Title: "X"}`, merge mode, archive without a metadata entry. -/
theorem c4_counterexample :
    serializeXmlDoc (finalXmlRoot
        (.parsed (reparsedDoc (finalXmlRoot .absent [("Title", "X")] false)))
        [("Title", "X")] false) ≠
      serializeXmlDoc (finalXmlRoot .absent [("Title", "X")] false) := by decide

/-- C4 (amended): tagging twice with the identical record (unique keys) and
identical mode always reproduces the identical children (tags, values and
order); the serialized entries are byte-identical in overwrite mode, and in
merge mode whenever the first write merged into an existing parsed entry
(non-empty, with no namespace-declaration attributes, as `ET.parse` output
always is); only the case where the first write freshly created the entry
differs, and then exactly in the root's `xmlns` declarations. -/
theorem c4_idempotence_amended (ex : ExistingEntry) (r : List (String × String))
    (m : Bool) (hnd : (r.map Prod.fst).Nodup) :
    ((finalXmlRoot (.parsed (reparsedDoc (finalXmlRoot ex r m))) r m).children =
      (finalXmlRoot ex r m).children) ∧
    (m = true →
      serializeXmlDoc (finalXmlRoot (.parsed (reparsedDoc (finalXmlRoot ex r m))) r m) =
        serializeXmlDoc (finalXmlRoot ex r m)) ∧
    (∀ doc, m = false → ex = .parsed doc → doc.children.isEmpty = false →
      (∀ a ∈ doc.attrs, isXmlnsAttr a.1 = false) →
      serializeXmlDoc (finalXmlRoot (.parsed (reparsedDoc (finalXmlRoot ex r m))) r m) =
        serializeXmlDoc (finalXmlRoot ex r m)) := by
  refine ⟨secondWrite_children_eq ex r m hnd, ?_, ?_⟩
  · intro hm
    subst hm
    rw [finalXmlRoot_overwrite, finalXmlRoot_overwrite]
  · intro doc hm hex hne hattr
    subst hm
    subst hex
    rw [finalXmlRoot_merge doc r hne]
    have hM : (mergeChildren doc.children r).isEmpty = false :=
      mergeChildren_isEmpty_false hne
    rw [show reparsedDoc { attrs := doc.attrs, children := mergeChildren doc.children r } =
        ({ attrs := doc.attrs.filter (fun a => !(isXmlnsAttr a.1)),
           children := mergeChildren doc.children r } : XmlDoc) from rfl]
    rw [finalXmlRoot_merge _ r hM]
    have hfilter : doc.attrs.filter (fun a => !(isXmlnsAttr a.1)) = doc.attrs := by
      rw [List.filter_eq_self]
      intro a ha
      rw [hattr a ha]
      rfl
    rw [hfilter, mergeChildren_idem hnd]

/-- Witness for C4 (amended) at a concrete existing entry and record. -/
theorem c4_witness :
    ((finalXmlRoot (.parsed (reparsedDoc (finalXmlRoot
        (.parsed ⟨[("k", "w")], [("Series", "S")]⟩) [("Title", "T")] false)))
        [("Title", "T")] false).children =
      (finalXmlRoot (.parsed ⟨[("k", "w")], [("Series", "S")]⟩)
        [("Title", "T")] false).children) ∧
    (serializeXmlDoc (finalXmlRoot (.parsed (reparsedDoc (finalXmlRoot
        (.parsed ⟨[("k", "w")], [("Series", "S")]⟩) [("Title", "T")] false)))
        [("Title", "T")] false) =
      serializeXmlDoc (finalXmlRoot (.parsed ⟨[("k", "w")], [("Series", "S")]⟩)
        [("Title", "T")] false)) := by
  have h := c4_idempotence_amended (.parsed ⟨[("k", "w")], [("Series", "S")]⟩)
    [("Title", "T")] false (by decide)
  exact ⟨h.1, h.2.2 ⟨[("k", "w")], [("Series", "S")]⟩ rfl rfl (by decide) (by decide)⟩

/-- C5 fails as stated: the write-path and erase-path scans match the
reserved name case-insensitively, but the inspect/read-back path
(`inspect_files.py` line 32) tests exact membership of `"ComicInfo.xml"` in
the entry list, so an entry named `"COMICINFO.XML"` is found by the write
and erase scans and missed by the inspect path. -/
theorem c5_counterexample :
    write_scan_find ["COMICINFO.XML"] = some "COMICINFO.XML" ∧
    erase_scan_found ["COMICINFO.XML"] = true ∧
    inspect_finds_entry ["COMICINFO.XML"] = false := by decide

/-- C5 (amended): the merge-time scan of the write path and the erase scan
match the reserved name case-insensitively, but the inspect/read-back path
finds the entry exactly when the entry list contains the reserved name with
its exact case. -/
theorem c5_amended (names : List String) :
    ((write_scan_find names).isSome ↔
      ∃ n ∈ names, pyLower n = comic_info_filename_lower) ∧
    (erase_scan_found names = true ↔
      ∃ n ∈ names, pyLower n = comic_info_filename_lower) ∧
    (inspect_finds_entry names = true ↔ comic_info_filename ∈ names) := by
  refine ⟨?_, ?_, ?_⟩
  · rw [write_scan_find, List.find?_isSome]
    constructor
    · rintro ⟨n, hn, he⟩
      exact ⟨n, hn, by simpa using he⟩
    · rintro ⟨n, hn, he⟩
      exact ⟨n, hn, by simpa using he⟩
  · rw [erase_scan_found, List.any_eq_true]
    constructor
    · rintro ⟨n, hn, he⟩
      exact ⟨n, hn, by simpa using he⟩
    · rintro ⟨n, hn, he⟩
      exact ⟨n, hn, by simpa using he⟩
  · rw [inspect_finds_entry]
    constructor
    · intro h
      simpa using h
    · intro h
      simpa using h

/-- C6 fails as stated: the mapper also applies the defaults
`LanguageISO=en` and `Format=Comic` (lines 238-239 of `tagging.py`), so
reading the freshly tagged archive back exposes nine fields, including
`LanguageISO`, which is not among the listed seven — not "exactly those six
fields and no others". -/
theorem c6_counterexample :
    ("LanguageISO", CIValue.str "en") ∈
      readComicInfoDict
        (finalXmlRoot .absent (map_cv_to_comicinfo_dict watchmenCV) false).children ∧
    "LanguageISO" ∉ ["Title", "Number", "Year", "Month", "Day", "Series", "Publisher"] := by
  decide

/-- C6 (amended): the example source record maps to the seven listed fields
`Title=Watchmen #1, Number=1, Year=1986, Month=9, Day=1, Series=Watchmen,
Publisher=DC Comics` plus the mapper defaults `LanguageISO=en` and
`Format=Comic`; tagging an archive with no prior metadata entry stores the
entry under the exact reserved name, the read-back path finds it, and
reading it back exposes exactly those nine fields. -/
theorem c6_example_scenario :
    map_cv_to_comicinfo_dict watchmenCV = watchmenRecord ∧
    inspect_finds_entry
      ((stagedEntries []
        (serializeXmlDoc (finalXmlRoot .absent (map_cv_to_comicinfo_dict watchmenCV) false))).map
        (fun e => e.name)) = true ∧
    readComicInfoDict
        (finalXmlRoot .absent (map_cv_to_comicinfo_dict watchmenCV) false).children =
      [("Title", .str "Watchmen #1"), ("Series", .str "Watchmen"), ("Number", .str "1"),
       ("Year", .str "1986"), ("Month", .str "9"), ("Day", .str "1"),
       ("Publisher", .str "DC Comics"), ("LanguageISO", .str "en"),
       ("Format", .str "Comic")] := by
  decide

/-- C7 fails as stated: the mapper sorts names with Python `sorted`, which
orders by Unicode code point (case-sensitively), not case-insensitively:
characters `alpha` and `Beta` are emitted as `"Beta, alpha"`, although
case-insensitive order would put `alpha` first. -/
theorem c7_counterexample :
    dget (map_cv_to_comicinfo_dict
        { character_credits := [⟨some "alpha"⟩, ⟨some "Beta"⟩] }) "Characters" =
      some "Beta, alpha" ∧
    pyStrLtb (pyLower "alpha") (pyLower "Beta") = true ∧
    "Beta, alpha" ≠ "alpha, Beta" := by
  refine ⟨by decide, by decide, by decide⟩

theorem charListLtb_asymm :
    ∀ {x y : List Char}, charListLtb x y = true → charListLtb y x = false
  | [], [], h => by simp [charListLtb] at h
  | [], _ :: _, _ => rfl
  | _ :: _, [], h => by simp [charListLtb] at h
  | a :: as, b :: bs, h => by
    rw [charListLtb] at h
    rw [charListLtb]
    by_cases hab : a.toNat < b.toNat
    · rw [if_neg (Nat.lt_asymm hab), if_pos hab]
    · rw [if_neg hab] at h
      by_cases hba : b.toNat < a.toNat
      · rw [if_pos hba] at h
        cases h
      · rw [if_neg hba] at h
        rw [if_neg hba, if_neg hab]
        exact charListLtb_asymm h

theorem charListLtb_linear :
    ∀ {x z : List Char} (y : List Char),
      charListLtb x z = true → charListLtb x y = true ∨ charListLtb y z = true
  | [], [], _, h => by simp [charListLtb] at h
  | _ :: _, [], _, h => by simp [charListLtb] at h
  | [], c :: cs, [], _ => Or.inr rfl
  | [], c :: cs, b :: bs, _ => Or.inl rfl
  | a :: as, c :: cs, [], _ => Or.inr rfl
  | a :: as, c :: cs, b :: bs, h => by
    rw [charListLtb] at h
    by_cases hab : a.toNat < b.toNat
    · left
      rw [charListLtb, if_pos hab]
    · by_cases hac : a.toNat < c.toNat
      · right
        have hbc : b.toNat < c.toNat := Nat.lt_of_le_of_lt (Nat.le_of_not_lt hab) hac
        rw [charListLtb, if_pos hbc]
      · rw [if_neg hac] at h
        by_cases hca : c.toNat < a.toNat
        · rw [if_pos hca] at h
          cases h
        · rw [if_neg hca] at h
          have hacEq : a.toNat = c.toNat :=
            Nat.le_antisymm (Nat.le_of_not_lt hca) (Nat.le_of_not_lt hac)
          by_cases hba : b.toNat < a.toNat
          · right
            have hbc : b.toNat < c.toNat := hacEq ▸ hba
            rw [charListLtb, if_pos hbc]
          · rcases charListLtb_linear bs h with h' | h'
            · left
              rw [charListLtb, if_neg hab, if_neg hba]
              exact h'
            · right
              have hbc : ¬b.toNat < c.toNat := fun hx => hba (hacEq ▸ hx)
              have hcb : ¬c.toNat < b.toNat := fun hx => hab (hacEq ▸ hx)
              rw [charListLtb, if_neg hbc, if_neg hcb]
              exact h'

instance : IsTotal String pyStrLe :=
  ⟨fun a b => by
    unfold pyStrLe pyStrLtb
    cases hb : charListLtb b.data a.data
    · exact Or.inl rfl
    · exact Or.inr (charListLtb_asymm hb)⟩

instance : IsTrans String pyStrLe :=
  ⟨fun a b c hab hbc => by
    unfold pyStrLe pyStrLtb at *
    cases hca : charListLtb c.data a.data
    · rfl
    · rcases charListLtb_linear b.data hca with h | h
      · rw [h] at hbc
        cases hbc
      · rw [h] at hab
        cases hab⟩

/-! ## Phase lemmas for the `Year` precedence -/

theorem dcontains_eq_isSome (d : List (String × String)) (k : String) :
    dcontains d k = (dget d k).isSome := by
  cases hb : dcontains d k
  · rw [dget_none_of_dcontains_false hb]
    rfl
  · have hm := dcontains_iff_mem.mp hb
    rw [← dget_isSome_iff] at hm
    exact hm.symm

theorem dget_phaseTitleNumber_ne (cv : CVIssue) (d : List (String × String))
    (k : String) (h1 : k ≠ "Title") (h2 : k ≠ "Number") :
    dget (phaseTitleNumber cv d) k = dget d k := by
  unfold phaseTitleNumber
  cases truthy cv.name with
  | none =>
    cases truthy cv.issue_number with
    | none => rfl
    | some v => exact dget_dinsert_ne _ _ _ _ h2
  | some v =>
    cases truthy cv.issue_number with
    | none => exact dget_dinsert_ne _ _ _ _ h1
    | some w => rw [dget_dinsert_ne _ _ _ _ h2, dget_dinsert_ne _ _ _ _ h1]

theorem dget_phaseAliases_ne (cv : CVIssue) (d : List (String × String))
    (k : String) (h : k ≠ "Notes") :
    dget (phaseAliases cv d) k = dget d k := by
  unfold phaseAliases
  cases truthy cv.aliases with
  | none => rfl
  | some a =>
    dsimp only
    by_cases hb : strip_html a == ""
    · rw [if_pos hb]
    · rw [if_neg hb, dget_dinsert_ne _ _ _ _ h]

theorem dget_phaseStoreDate_ne (cv : CVIssue) (d : List (String × String))
    (k : String) (h : k ≠ "Notes") :
    dget (phaseStoreDate cv d) k = dget d k := by
  unfold phaseStoreDate
  cases truthy cv.store_date with
  | none => rfl
  | some sd =>
    dsimp only
    by_cases hb : cv.store_date ≠ cv.cover_date
    · rw [if_pos hb, dget_dinsert_ne _ _ _ _ h]
    · rw [if_neg hb]

theorem dget_phaseSummary_ne (cv : CVIssue) (d : List (String × String))
    (k : String) (h : k ≠ "Summary") :
    dget (phaseSummary cv d) k = dget d k := by
  unfold phaseSummary
  cases truthy cv.description with
  | none => rfl
  | some ds => exact dget_dinsert_ne _ _ _ _ h

theorem dget_phaseDeck_ne (cv : CVIssue) (d : List (String × String))
    (k : String) (h : k ≠ "Notes") :
    dget (phaseDeck cv d) k = dget d k := by
  unfold phaseDeck
  cases truthy cv.deck with
  | none => rfl
  | some dk =>
    dsimp only
    by_cases hb : strip_html dk == ""
    · rw [if_pos hb]
    · rw [if_neg hb, dget_dinsert_ne _ _ _ _ h]

theorem dget_phaseWeb_ne (cv : CVIssue) (d : List (String × String))
    (k : String) (h : k ≠ "Web") :
    dget (phaseWeb cv d) k = dget d k := by
  unfold phaseWeb
  cases truthy cv.site_detail_url with
  | none => rfl
  | some u => exact dget_dinsert_ne _ _ _ _ h

theorem dget_map_generic_ne (items : List CVNamed) (tag : String)
    (d : List (String × String)) (k : String) (h : k ≠ tag) :
    dget (map_generic_credits_list items tag d) k = dget d k := by
  unfold map_generic_credits_list
  by_cases hi : items.isEmpty
  · rw [if_pos hi]
  · rw [if_neg hi]
    by_cases hn : (namesOfList items).isEmpty
    · rw [if_pos hn]
    · rw [if_neg hn, dget_dinsert_ne _ _ _ _ h]

theorem dget_phaseConcepts_ne (cv : CVIssue) (d : List (String × String))
    (k : String) (h : k ≠ "Genre") :
    dget (phaseConcepts cv d) k = dget d k := by
  unfold phaseConcepts
  by_cases hi : (if cv.concept_credits.isEmpty = true then []
      else namesOfList cv.concept_credits).isEmpty
  · rw [if_pos hi]
  · rw [if_neg hi]
    by_cases hg : (((((pySplit ((dget d "Genre").getD "") ',').map pyStrip).filter
        (fun s => s != "")) ++ (if cv.concept_credits.isEmpty = true then []
          else namesOfList cv.concept_credits)).dedup).isEmpty
    · rw [if_pos hg]
    · rw [if_neg hg, dget_dinsert_ne _ _ _ _ h]

theorem dget_phaseObjects_ne (cv : CVIssue) (d : List (String × String))
    (k : String) (h : k ≠ "Notes") :
    dget (phaseObjects cv d) k = dget d k := by
  unfold phaseObjects
  by_cases hi : (if cv.object_credits.isEmpty = true then []
      else namesOfList cv.object_credits).isEmpty
  · rw [if_pos hi]
  · rw [if_neg hi, dget_dinsert_ne _ _ _ _ h]

theorem dget_phaseDefaults_ne (d : List (String × String)) (k : String)
    (h1 : k ≠ "LanguageISO") (h2 : k ≠ "Format") :
    dget (phaseDefaults d) k = dget d k := by
  unfold phaseDefaults
  rw [dget_dsetdefault_ne _ _ _ _ h2, dget_dsetdefault_ne _ _ _ _ h1]

theorem addCredit_keys {temp : List (String × List String)} {tag name t : String}
    (h : t ∈ (addCredit temp tag name).map Prod.fst) :
    t ∈ temp.map Prod.fst ∨ t = tag := by
  induction temp with
  | nil =>
    simp [addCredit] at h
    exact Or.inr h
  | cons q rest ih =>
    rw [addCredit] at h
    by_cases hq : q.1 == tag
    · rcases q with ⟨qt, qns⟩
      rw [if_pos hq] at h
      simp only [List.map_cons, List.mem_cons] at h ⊢
      rcases h with h | h
      · exact Or.inl (Or.inl h)
      · exact Or.inl (Or.inr h)
    · rcases q with ⟨qt, qns⟩
      rw [if_neg hq] at h
      simp only [List.map_cons, List.mem_cons] at h ⊢
      rcases h with h | h
      · exact Or.inl (Or.inl h)
      · rcases ih h with h' | h'
        · exact Or.inl (Or.inr h')
        · exact Or.inr h'

theorem roleStep_keys {roleStr name : String}
    {acc : List (String × List String) × List String} {kv : String × String}
    {t : String} (h : t ∈ ((roleStep roleStr name acc kv).1).map Prod.fst) :
    t ∈ acc.1.map Prod.fst ∨ t = kv.2 := by
  unfold roleStep at h
  by_cases hs : strHasSub roleStr kv.1
  · rw [if_pos hs] at h
    exact addCredit_keys h
  · rw [if_neg hs] at h
    exact Or.inl h

theorem foldl_roleStep_keys (roleStr name : String) :
    ∀ (kvs : List (String × String)) (acc : List (String × List String) × List String)
      (t : String), t ∈ ((kvs.foldl (roleStep roleStr name) acc).1).map Prod.fst →
      t ∈ acc.1.map Prod.fst ∨ ∃ kv ∈ kvs, t = kv.2 := by
  intro kvs
  induction kvs with
  | nil => intro acc t h; exact Or.inl h
  | cons kv rest ih =>
    intro acc t h
    rw [List.foldl_cons] at h
    rcases ih _ t h with h' | h'
    · rcases roleStep_keys h' with h'' | h''
      · exact Or.inl h''
      · exact Or.inr ⟨kv, List.mem_cons_self _ _, h''⟩
    · rcases h' with ⟨kv', hkv', ht⟩
      exact Or.inr ⟨kv', List.mem_cons_of_mem _ hkv', ht⟩

theorem person_roles_map_tags : ∀ kv ∈ person_roles_map, kv.2 ∈ credit_tags := by
  decide

theorem processPerson_keys {temp : List (String × List String)} {p : CVPerson}
    {t : String} (h : t ∈ (processPerson temp p).map Prod.fst) :
    t ∈ temp.map Prod.fst ∨ t ∈ credit_tags := by
  unfold processPerson at h
  cases hn : truthy p.name with
  | none => rw [hn] at h; exact Or.inl h
  | some name =>
    rw [hn] at h
    dsimp only at h
    set step := person_roles_map.foldl (roleStep (pyLower (p.role.getD "")) name) (temp, [])
      with hstep
    by_cases ha : !(["Penciller", "Inker", "Colorist", "CoverArtist"].any
        (fun u => step.2.contains u))
    · rw [if_pos ha] at h
      by_cases hg : generic_art_roles.any (fun g => strHasSub (pyLower (p.role.getD "")) g)
      · rw [if_pos hg] at h
        rcases addCredit_keys h with h' | h'
        · rcases foldl_roleStep_keys _ _ _ _ _ h' with h'' | h''
          · exact Or.inl h''
          · rcases h'' with ⟨kv, hkv, ht⟩
            subst ht
            exact Or.inr (person_roles_map_tags kv hkv)
        · subst h'
          right
          decide
      · rw [if_neg hg] at h
        rcases foldl_roleStep_keys _ _ _ _ _ h with h'' | h''
        · exact Or.inl h''
        · rcases h'' with ⟨kv, hkv, ht⟩
          subst ht
          exact Or.inr (person_roles_map_tags kv hkv)
    · rw [if_neg ha] at h
      rcases foldl_roleStep_keys _ _ _ _ _ h with h'' | h''
      · exact Or.inl h''
      · rcases h'' with ⟨kv, hkv, ht⟩
        subst ht
        exact Or.inr (person_roles_map_tags kv hkv)

theorem creditTemp_keys (ps : List CVPerson) :
    ∀ (temp : List (String × List String)),
      (∀ t ∈ temp.map Prod.fst, t ∈ credit_tags) →
      ∀ t ∈ (ps.foldl processPerson temp).map Prod.fst, t ∈ credit_tags := by
  induction ps with
  | nil => intro temp htemp t ht; exact htemp t ht
  | cons p rest ih =>
    intro temp htemp t ht
    rw [List.foldl_cons] at ht
    refine ih (processPerson temp p) ?_ t ht
    intro u hu
    rcases processPerson_keys hu with h | h
    · exact htemp u h
    · exact h

theorem dget_emitFold_ne {k : String} :
    ∀ (temp : List (String × List String)) (d : List (String × String)),
      (∀ p ∈ temp, p.1 ≠ k) → dget (temp.foldl emitCredit d) k = dget d k := by
  intro temp
  induction temp with
  | nil => intro d _; rfl
  | cons q rest ih =>
    intro d h
    rw [List.foldl_cons, ih _ (fun p hp => h p (List.mem_cons_of_mem _ hp))]
    unfold emitCredit
    by_cases he : q.2.isEmpty
    · rw [if_pos he]
    · rw [if_neg he,
        dget_dinsert_ne _ _ _ _ (fun hx => (h q (List.mem_cons_self _ _)) hx.symm)]

theorem dget_emitFold_mem :
    ∀ {temp : List (String × List String)}, (temp.map Prod.fst).Nodup →
      ∀ {tag : String} {ns : List String}, (tag, ns) ∈ temp → ns.isEmpty = false →
      ∀ d, dget (temp.foldl emitCredit d) tag =
        some (String.intercalate ", " (sortStrings ns)) := by
  intro temp
  induction temp with
  | nil => intro _ tag ns hm; simp at hm
  | cons q rest ih =>
    intro hnd tag ns hm hne d
    rw [List.foldl_cons]
    rcases List.mem_cons.mp hm with h1 | h2
    · have hrest : ∀ p ∈ rest, p.1 ≠ tag := by
        intro p hp hx
        rw [List.map_cons, List.nodup_cons] at hnd
        exact hnd.1 (by rw [← h1]; exact hx ▸ List.mem_map.mpr ⟨p, hp, rfl⟩)
      rw [dget_emitFold_ne _ _ hrest, ← h1]
      unfold emitCredit
      rw [if_neg (by rw [hne]; exact Bool.false_ne_true), dget_dinsert_self]
    · have hnd' : (rest.map Prod.fst).Nodup := by
        rw [List.map_cons, List.nodup_cons] at hnd
        exact hnd.2
      exact ih hnd' h2 hne _

theorem dget_phaseCredits_ne (cv : CVIssue) (d : List (String × String))
    (k : String) (hk : k ∉ credit_tags) :
    dget (phaseCredits cv d) k = dget d k := by
  unfold phaseCredits
  refine dget_emitFold_ne _ _ (fun p hp hx => hk ?_)
  have hmem : p.1 ∈ (temp_credits_by_ci_tag cv).map Prod.fst :=
    List.mem_map.mpr ⟨p, hp, rfl⟩
  have := creditTemp_keys cv.person_credits [] (by intro t ht; simp at ht) p.1
    (by unfold temp_credits_by_ci_tag at hmem; exact hmem)
  exact hx ▸ this

theorem phaseCoverDate_id (cv : CVIssue) (d : List (String × String))
    (h : issueYearFields cv = none) : phaseCoverDate cv d = d := by
  unfold phaseCoverDate
  unfold issueYearFields at h
  cases hn : truthy cv.cover_date with
  | none => rfl
  | some ds =>
    rw [hn] at h
    dsimp only at h
    dsimp only
    rw [h]

theorem dget_phaseCoverDate_some (cv : CVIssue) (d : List (String × String))
    {y : String} {mo dy : Option String}
    (h : issueYearFields cv = some (y, mo, dy)) :
    dget (phaseCoverDate cv d) "Year" = some y := by
  unfold phaseCoverDate
  unfold issueYearFields at h
  cases hn : truthy cv.cover_date with
  | none => rw [hn] at h; cases h
  | some ds =>
    rw [hn] at h
    dsimp only at h
    dsimp only
    rw [h]
    dsimp only
    cases mo with
    | none =>
      cases dy with
      | none => exact dget_dinsert_self _ _ _
      | some dd => rw [dget_dinsert_ne _ _ _ _ (by decide), dget_dinsert_self]
    | some m =>
      cases dy with
      | none => rw [dget_dinsert_ne _ _ _ _ (by decide), dget_dinsert_self]
      | some dd =>
        rw [dget_dinsert_ne _ _ _ _ (by decide), dget_dinsert_ne _ _ _ _ (by decide),
          dget_dinsert_self]

theorem dget_volSeries_ne (vol : CVVolume) (d : List (String × String))
    (k : String) (h : k ≠ "Series") : dget (volSeries vol d) k = dget d k := by
  unfold volSeries
  cases truthy vol.name with
  | none => rfl
  | some v => exact dget_dinsert_ne _ _ _ _ h

theorem dget_volPublisher_ne (vol : CVVolume) (d : List (String × String))
    (k : String) (h : k ≠ "Publisher") : dget (volPublisher vol d) k = dget d k := by
  unfold volPublisher
  cases vol.publisher with
  | none => rfl
  | some pub =>
    dsimp only
    cases truthy pub.name with
    | none => rfl
    | some p => exact dget_dinsert_ne _ _ _ _ h

theorem dget_volCount_ne (vol : CVVolume) (d : List (String × String))
    (k : String) (h : k ≠ "Count") : dget (volCount vol d) k = dget d k := by
  unfold volCount
  cases vol.count_of_issues with
  | none => rfl
  | some c => exact dget_dinsert_ne _ _ _ _ h

theorem dget_phaseVolume_Year_some (cv : CVIssue) (d : List (String × String))
    {yv : String} (h : dget d "Year" = some yv) :
    dget (phaseVolume cv d) "Year" = some yv := by
  unfold phaseVolume
  cases cv.volume with
  | none => exact h
  | some vol =>
    dsimp only
    have h3 : dget (volCount vol (volPublisher vol (volSeries vol d))) "Year" = some yv := by
      rw [dget_volCount_ne _ _ _ (by decide), dget_volPublisher_ne _ _ _ (by decide),
        dget_volSeries_ne _ _ _ (by decide)]
      exact h
    unfold volStartYear
    cases truthy vol.start_year with
    | none => exact h3
    | some sy =>
      dsimp only
      rw [if_pos (by rw [dcontains_eq_isSome, h3]; rfl : dcontains
        (volCount vol (volPublisher vol (volSeries vol d))) "Year" = true)]
      exact h3

theorem dget_phaseVolume_Year_fallback (cv : CVIssue) (d : List (String × String))
    {vol : CVVolume} {sy : String} (hvol : cv.volume = some vol)
    (hsy : truthy vol.start_year = some sy) (h : dget d "Year" = none) :
    dget (phaseVolume cv d) "Year" = some sy := by
  unfold phaseVolume
  rw [hvol]
  dsimp only
  have h3 : dget (volCount vol (volPublisher vol (volSeries vol d))) "Year" = none := by
    rw [dget_volCount_ne _ _ _ (by decide), dget_volPublisher_ne _ _ _ (by decide),
      dget_volSeries_ne _ _ _ (by decide)]
    exact h
  unfold volStartYear
  rw [hsy]
  dsimp only
  rw [if_neg (by rw [dcontains_eq_isSome, h3]; exact Bool.false_ne_true), dget_dinsert_self]

theorem dget_postVolume_Year (cv : CVIssue) (d : List (String × String)) :
    dget (phaseDefaults (phaseObjects cv (phaseConcepts cv
      (map_generic_credits_list cv.story_arc_credits "StoryArc"
        (map_generic_credits_list cv.location_credits "Locations"
          (map_generic_credits_list cv.team_credits "Teams"
            (map_generic_credits_list cv.character_credits "Characters"
              (phaseCredits cv d)))))))) "Year" = dget (phaseCredits cv d) "Year" := by
  rw [dget_phaseDefaults_ne _ _ (by decide) (by decide),
    dget_phaseObjects_ne _ _ _ (by decide),
    dget_phaseConcepts_ne _ _ _ (by decide),
    dget_map_generic_ne _ _ _ _ (by decide),
    dget_map_generic_ne _ _ _ _ (by decide),
    dget_map_generic_ne _ _ _ _ (by decide),
    dget_map_generic_ne _ _ _ _ (by decide)]

/-- C8: the mapped `Year` is taken from the issue-level cover date whenever
it is present and parses under a recognized format, and the volume-level
`start_year` supplies `Year` only when no issue-level `Year` was produced;
when both are available, the issue-level value wins. The `pyStrip`
hypotheses record that the value survives the final non-empty filter, which
holds for every digit string; the second clause carries an ASCII hypothesis
on the cover date because the date model covers ASCII digits, while Python
would also accept Unicode digit characters. -/
theorem c8_year_precedence (cv : CVIssue) :
    (∀ y mo dy, issueYearFields cv = some (y, mo, dy) → ¬(pyStrip y == "") →
      dget (map_cv_to_comicinfo_dict cv) "Year" = some y) ∧
    (issueYearFields cv = none →
      (∀ ds, cv.cover_date = some ds → ∀ c ∈ ds.data, c.toNat ≤ 127) →
      ∀ vol sy, cv.volume = some vol → truthy vol.start_year = some sy →
        ¬(pyStrip sy == "") →
        dget (map_cv_to_comicinfo_dict cv) "Year" = some sy) := by
  constructor
  · intro y mo dy hy hstrip
    have hYpre : dget (phaseCredits cv (phaseVolume cv (phaseWeb cv (phaseDeck cv
        (phaseSummary cv (phaseStoreDate cv (phaseCoverDate cv
          (phaseAliases cv (phaseTitleNumber cv []))))))))) "Year" = some y := by
      rw [dget_phaseCredits_ne _ _ _ (by decide)]
      refine dget_phaseVolume_Year_some cv _ ?_
      rw [dget_phaseWeb_ne _ _ _ (by decide), dget_phaseDeck_ne _ _ _ (by decide),
        dget_phaseSummary_ne _ _ _ (by decide), dget_phaseStoreDate_ne _ _ _ (by decide)]
      exact dget_phaseCoverDate_some cv _ hy
    have hmain : dget (mapCvPhases cv) "Year" = some y := by
      unfold mapCvPhases
      rw [dget_postVolume_Year]
      exact hYpre
    unfold map_cv_to_comicinfo_dict
    refine dget_filter hmain ?_
    show (pyStrip y != "") = true
    unfold bne
    cases hb : (pyStrip y == "")
    · rfl
    · exact absurd hb hstrip
  · intro hnone _hascii vol sy hvol hsy hstrip
    have hYpre : dget (phaseCredits cv (phaseVolume cv (phaseWeb cv (phaseDeck cv
        (phaseSummary cv (phaseStoreDate cv (phaseCoverDate cv
          (phaseAliases cv (phaseTitleNumber cv []))))))))) "Year" = some sy := by
      rw [dget_phaseCredits_ne _ _ _ (by decide)]
      refine dget_phaseVolume_Year_fallback cv _ hvol hsy ?_
      rw [dget_phaseWeb_ne _ _ _ (by decide), dget_phaseDeck_ne _ _ _ (by decide),
        dget_phaseSummary_ne _ _ _ (by decide), dget_phaseStoreDate_ne _ _ _ (by decide),
        phaseCoverDate_id cv _ hnone, dget_phaseAliases_ne _ _ _ (by decide),
        dget_phaseTitleNumber_ne _ _ _ (by decide) (by decide)]
      rfl
    have hmain : dget (mapCvPhases cv) "Year" = some sy := by
      unfold mapCvPhases
      rw [dget_postVolume_Year]
      exact hYpre
    unfold map_cv_to_comicinfo_dict
    refine dget_filter hmain ?_
    show (pyStrip sy != "") = true
    unfold bne
    cases hb : (pyStrip sy == "")
    · rfl
    · exact absurd hb hstrip

/-- Witness for C8 at concrete issues: cover date `1986-09-01` beats
`start_year = 2000`; the single-digit-day form `1986-09-1 ` (parsed by
`strptime` from the head before the space) also beats `start_year`; with an
unparseable cover date, `start_year` supplies the year. -/
theorem c8_witness :
    dget (map_cv_to_comicinfo_dict
      { cover_date := some "1986-09-01",
        volume := some { start_year := some "2000" } }) "Year" = some "1986" ∧
    dget (map_cv_to_comicinfo_dict
      { cover_date := some "1986-09-1 ",
        volume := some { start_year := some "2000" } }) "Year" = some "1986" ∧
    dget (map_cv_to_comicinfo_dict
      { cover_date := some "September 1986",
        volume := some { start_year := some "2000" } }) "Year" = some "2000" := by
  refine ⟨?_, ?_, ?_⟩
  · exact (c8_year_precedence
      { cover_date := some "1986-09-01",
        volume := some { start_year := some "2000" } }).1
      "1986" (some "9") (some "1") (by decide) (by decide)
  · exact (c8_year_precedence
      { cover_date := some "1986-09-1 ",
        volume := some { start_year := some "2000" } }).1
      "1986" (some "9") (some "1") (by decide) (by decide)
  · exact (c8_year_precedence
      { cover_date := some "September 1986",
        volume := some { start_year := some "2000" } }).2
      (by decide) (by intro ds hds c hc; cases hds; revert hc; revert c; decide)
      { start_year := some "2000" } "2000" rfl (by decide) (by decide)


/-- C1 fails as stated: the temporary container is created by
`tempfile.mkstemp` in the system temporary directory, not next to the
archive, and `shutil.move` falls back to a non-atomic copy-then-delete when
that directory is on a different filesystem; an I/O failure in mid-copy then
leaves the original archive partially overwritten (here: a one-byte prefix
of the staged container), even though the operation reports failure and
removes the temporary file. -/
theorem c1_counterexample :
    (write_comic_info_to_cbz [⟨"page1.jpg", "IMG"⟩] "XML" false (some (.move 1))).1 =
      false ∧
    (write_comic_info_to_cbz [⟨"page1.jpg", "IMG"⟩] "XML" false
        (some (.move 1))).2.1.origBytes ≠ encodeZip [⟨"page1.jpg", "IMG"⟩] ∧
    (write_comic_info_to_cbz [⟨"page1.jpg", "IMG"⟩] "XML" false
        (some (.move 1))).2.1.origBytes ≠
      encodeZip (stagedEntries [⟨"page1.jpg", "IMG"⟩] "XML") := by
  refine ⟨by decide, by decide, by decide⟩

/-- C1 (amended): when the temporary file is on the same filesystem as the
archive — the situation the spec describes, where `shutil.move` is an atomic
`os.rename` — every tag and erase rewrite is atomic: success replaces the
archive with the fully staged container and removes the temporary file,
every failure reports `False`, removes the temporary file, and leaves the
original byte-for-byte unchanged, and no reachable state holds a partially
overwritten original. -/
theorem c1_atomic_rewrite (entries : List ZEntry) (xml : String)
    (fail : Option FailPoint) :
    ((write_comic_info_to_cbz entries xml true fail).1 = true ↔ fail = none) ∧
    ((write_comic_info_to_cbz entries xml true fail).1 = true →
      (write_comic_info_to_cbz entries xml true fail).2.1 =
        ⟨encodeZip (stagedEntries entries xml), none⟩) ∧
    ((write_comic_info_to_cbz entries xml true fail).1 = false →
      (write_comic_info_to_cbz entries xml true fail).2.1 =
        ⟨encodeZip entries, none⟩) ∧
    (∀ s ∈ (write_comic_info_to_cbz entries xml true fail).2.2,
      s.origBytes = encodeZip entries ∨
      s.origBytes = encodeZip (stagedEntries entries xml)) ∧
    ((erase_comic_info_from_cbz entries true fail).1 = false →
      (erase_comic_info_from_cbz entries true fail).2.1 =
        ⟨encodeZip entries, none⟩) ∧
    ((erase_comic_info_from_cbz entries true fail).1 = true →
      (erase_comic_info_from_cbz entries true fail).2.1.temp = none ∧
      ((erase_comic_info_from_cbz entries true fail).2.1.origBytes = encodeZip entries ∨
       (erase_comic_info_from_cbz entries true fail).2.1.origBytes =
         encodeZip (erasedEntries entries))) ∧
    (∀ s ∈ (erase_comic_info_from_cbz entries true fail).2.2,
      s.origBytes = encodeZip entries ∨
      s.origBytes = encodeZip (erasedEntries entries)) := by
  refine ⟨?_, ?_, ?_, ?_, ?_, ?_, ?_⟩
  · cases fail with
    | none => simp [write_comic_info_to_cbz]
    | some fp => cases fp <;> simp [write_comic_info_to_cbz]
  · cases fail with
    | none => intro _; rfl
    | some fp => cases fp <;> intro h <;> simp [write_comic_info_to_cbz] at h
  · cases fail with
    | none => intro h; simp [write_comic_info_to_cbz] at h
    | some fp => cases fp <;> intro _ <;> rfl
  · cases fail with
    | none =>
      intro s hs
      simp only [write_comic_info_to_cbz] at hs
      fin_cases hs <;> first | exact Or.inl rfl | exact Or.inr rfl
    | some fp =>
      cases fp <;>
        (intro s hs
         simp only [write_comic_info_to_cbz] at hs
         fin_cases hs <;> first | exact Or.inl rfl | exact Or.inr rfl)
  · unfold erase_comic_info_from_cbz
    by_cases hf : fail = some .readExisting
    · rw [if_pos hf]
      intro _
      rfl
    · rw [if_neg hf]
      by_cases hsc : !(erase_scan_found (entries.map (fun e => e.name)))
      · rw [if_pos hsc]
        intro h
        cases h
      · rw [if_neg hsc]
        cases fail with
        | none => intro h; cases h
        | some fp =>
          cases fp with
          | readExisting => exact absurd rfl hf
          | mkstemp => intro _; rfl
          | stage k => intro _; rfl
          | move j => dsimp only; intro _; rfl
  · unfold erase_comic_info_from_cbz
    by_cases hf : fail = some .readExisting
    · rw [if_pos hf]
      intro h
      cases h
    · rw [if_neg hf]
      by_cases hsc : !(erase_scan_found (entries.map (fun e => e.name)))
      · rw [if_pos hsc]
        intro _
        exact ⟨rfl, Or.inl rfl⟩
      · rw [if_neg hsc]
        cases fail with
        | none => intro _; exact ⟨rfl, Or.inr rfl⟩
        | some fp =>
          cases fp with
          | readExisting => exact absurd rfl hf
          | mkstemp => intro h; cases h
          | stage k => intro h; cases h
          | move j => dsimp only; intro h; cases h
  · unfold erase_comic_info_from_cbz
    by_cases hf : fail = some .readExisting
    · rw [if_pos hf]
      intro s hs
      fin_cases hs
      exact Or.inl rfl
    · rw [if_neg hf]
      by_cases hsc : !(erase_scan_found (entries.map (fun e => e.name)))
      · rw [if_pos hsc]
        intro s hs
        fin_cases hs
        exact Or.inl rfl
      · rw [if_neg hsc]
        cases fail with
        | none =>
          intro s hs
          fin_cases hs <;> first | exact Or.inl rfl | exact Or.inr rfl
        | some fp =>
          cases fp with
          | readExisting => exact absurd rfl hf
          | mkstemp =>
            intro s hs
            fin_cases hs <;> first | exact Or.inl rfl | exact Or.inr rfl
          | stage k =>
            intro s hs
            fin_cases hs <;> first | exact Or.inl rfl | exact Or.inr rfl
          | move j =>
            dsimp only
            intro s hs
            fin_cases hs <;> first | exact Or.inl rfl | exact Or.inr rfl

/-- Witness for C1 (amended) at a concrete archive, record and failure. -/
theorem c1_witness :
    (write_comic_info_to_cbz [⟨"p.jpg", "D"⟩] "X" true (some (.stage 1))).1 = false →
    (write_comic_info_to_cbz [⟨"p.jpg", "D"⟩] "X" true (some (.stage 1))).2.1 =
      ⟨encodeZip [⟨"p.jpg", "D"⟩], none⟩ := by
  exact (c1_atomic_rewrite [⟨"p.jpg", "D"⟩] "X" (some (.stage 1))).2.2.1

/-- C9: erasing on a valid archive whose entry list contains no metadata
entry under case-insensitive matching returns success and performs no
rewrite at all — the result state is the untouched original, no temporary
file is ever created, and the only reachable state is the initial one. -/
theorem c9_erase_absent_noop (entries : List ZEntry) (sameFs : Bool)
    (fail : Option FailPoint)
    (hnone : erase_scan_found (entries.map (fun e => e.name)) = false)
    (hvalid : fail ≠ some .readExisting) :
    erase_comic_info_from_cbz entries sameFs fail =
      (true, ⟨encodeZip entries, none⟩, [⟨encodeZip entries, none⟩]) := by
  unfold erase_comic_info_from_cbz
  rw [if_neg hvalid, if_pos (by rw [hnone]; rfl)]

/-- Witness for C9 at a concrete archive without a metadata entry. -/
theorem c9_witness :
    erase_comic_info_from_cbz [⟨"page1.jpg", "IMG"⟩] true none =
      (true, ⟨encodeZip [⟨"page1.jpg", "IMG"⟩], none⟩,
        [⟨encodeZip [⟨"page1.jpg", "IMG"⟩], none⟩]) :=
  c9_erase_absent_noop [⟨"page1.jpg", "IMG"⟩] true none (by decide) (by decide)

theorem dget_dremove_self (d : List (String × String)) (k : String) :
    dget (dremove d k) k = none := by
  induction d with
  | nil => rfl
  | cons p rest ih =>
    unfold dremove at *
    rw [List.filter_cons]
    by_cases he : p.1 = k
    · rw [if_neg (by simp [he])]
      exact ih
    · rw [if_pos (by simp [he]), dget_cons, if_neg he]
      exact ih

theorem dget_dremove_ne (d : List (String × String)) (k k' : String)
    (h : k' ≠ k) : dget (dremove d k) k' = dget d k' := by
  induction d with
  | nil => rfl
  | cons p rest ih =>
    unfold dremove at *
    rw [List.filter_cons]
    by_cases he : p.1 = k
    · rw [if_neg (by simp [he]), dget_cons,
        if_neg (fun hx => h (by rw [← hx]; exact he)), ih]
    · rw [if_pos (by simp [he]), dget_cons, dget_cons]
      by_cases he' : p.1 = k'
      · rw [if_pos he', if_pos he']
      · rw [if_neg he', if_neg he', ih]

/-- C10: the filename derivation is a pure function — the spec's Filename
Deriver is not present under `src/` and is modelled from §4.2 — so two
calls on the same record and extension agree; moreover the Title part is
omitted whenever Title equals `"#<Number>"` case-insensitively: the derived
name coincides with the name derived from the record with Title removed. -/
theorem c10_derive_deterministic (rec : List (String × String)) (ext : String) :
    deriveFilename rec ext = deriveFilename rec ext ∧
    (∀ t n, truthy (dget rec "Title") = some t → truthy (dget rec "Number") = some n →
      pyLower t = pyLower ("#" ++ n) →
      deriveFilename rec ext = deriveFilename (dremove rec "Title") ext) := by
  refine ⟨rfl, ?_⟩
  intro t n ht hn hlow
  have hred : titleIsRedundant rec t = true := by
    unfold titleIsRedundant
    rw [hn]
    dsimp only
    rw [show (pyLower t == pyLower ("#" ++ n)) = true from by
      rw [hlow]; exact beq_self_eq_true _]
    rw [Bool.true_or, Bool.or_true]
  have hparts : filenameParts rec = filenameParts (dremove rec "Title") := by
    unfold filenameParts
    rw [dget_dremove_ne rec "Title" "Series" (by decide),
      dget_dremove_ne rec "Title" "Volume" (by decide),
      dget_dremove_ne rec "Title" "Number" (by decide),
      dget_dremove_ne rec "Title" "Year" (by decide),
      dget_dremove_self rec "Title", ht]
    dsimp only
    rw [hred]
    rfl
  unfold deriveFilename
  rw [hparts]

/-- Witness for C10 at a concrete record. -/
theorem c10_witness :
    deriveFilename
        [("Title", "#1"), ("Series", "Watchmen"), ("Number", "1"), ("Year", "1986")]
        ".cbz" =
      deriveFilename
        (dremove [("Title", "#1"), ("Series", "Watchmen"), ("Number", "1"),
          ("Year", "1986")] "Title") ".cbz" := by
  exact (c10_derive_deterministic
    [("Title", "#1"), ("Series", "Watchmen"), ("Number", "1"), ("Year", "1986")]
    ".cbz").2 "#1" "1" (by decide) (by decide) (by decide)

/-! ## Shape of the per-tag credit sets -/

theorem addCredit_map_fst (temp : List (String × List String)) (tag name : String) :
    (addCredit temp tag name).map Prod.fst =
      if tag ∈ temp.map Prod.fst then temp.map Prod.fst
      else temp.map Prod.fst ++ [tag] := by
  induction temp with
  | nil => simp [addCredit]
  | cons q rest ih =>
    obtain ⟨t, ns⟩ := q
    rw [addCredit]
    cases hb : (t == tag) with
    | true =>
      have he : t = tag := by simpa using hb
      rw [if_pos rfl]
      simp [he]
    | false =>
      have he : ¬t = tag := by simpa using hb
      simp only [Bool.false_eq_true, if_false, List.map_cons, ih]
      by_cases hm : tag ∈ rest.map Prod.fst
      · rw [if_pos hm, if_pos (List.mem_cons_of_mem _ hm)]
      · rw [if_neg hm, if_neg (by
          intro hx
          rcases List.mem_cons.mp hx with h1 | h1
          · exact he h1.symm
          · exact hm h1)]
        rfl

theorem addCredit_keys_nodup {temp : List (String × List String)} {tag name : String}
    (h : (temp.map Prod.fst).Nodup) :
    ((addCredit temp tag name).map Prod.fst).Nodup := by
  rw [addCredit_map_fst]
  by_cases hm : tag ∈ temp.map Prod.fst
  · rw [if_pos hm]
    exact h
  · rw [if_neg hm, List.nodup_append]
    exact ⟨h, List.nodup_singleton _, by
      intro a ha hb
      rw [List.mem_singleton] at hb
      exact hm (hb ▸ ha)⟩

theorem addCredit_values_nodup {temp : List (String × List String)} {tag name : String}
    (h : ∀ p ∈ temp, p.2.Nodup) :
    ∀ p ∈ addCredit temp tag name, p.2.Nodup := by
  induction temp with
  | nil =>
    intro p hp
    simp only [addCredit, List.mem_cons, List.not_mem_nil, or_false] at hp
    subst hp
    exact List.nodup_singleton _
  | cons q rest ih =>
    obtain ⟨t, ns⟩ := q
    intro p hp
    rw [addCredit] at hp
    cases hb : (t == tag) with
    | true =>
      rw [hb, if_pos rfl] at hp
      rcases List.mem_cons.mp hp with h1 | h1
      · subst h1
        dsimp only
        by_cases hc : ns.contains name
        · rw [if_pos hc]
          exact h (t, ns) (List.mem_cons_self _ _)
        · have hn : name ∉ ns := by
            intro hmem
            exact hc (List.elem_eq_true_of_mem hmem)
          rw [if_neg hc, List.nodup_append]
          exact ⟨h (t, ns) (List.mem_cons_self _ _), List.nodup_singleton _, by
            intro a ha hb2
            rw [List.mem_singleton] at hb2
            exact hn (hb2 ▸ ha)⟩
      · exact h p (List.mem_cons_of_mem _ h1)
    | false =>
      rw [hb] at hp
      simp only [Bool.false_eq_true, if_false] at hp
      rcases List.mem_cons.mp hp with h1 | h1
      · subst h1
        exact h (t, ns) (List.mem_cons_self _ _)
      · exact ih (fun q hq => h q (List.mem_cons_of_mem _ hq)) p h1

theorem foldl_roleStep_keys_nodup (roleStr name : String) :
    ∀ (kvs : List (String × String)) (acc : List (String × List String) × List String),
      (acc.1.map Prod.fst).Nodup →
      (((kvs.foldl (roleStep roleStr name) acc).1).map Prod.fst).Nodup := by
  intro kvs
  induction kvs with
  | nil => intro acc h; exact h
  | cons kv rest ih =>
    intro acc h
    rw [List.foldl_cons]
    refine ih _ ?_
    unfold roleStep
    by_cases hs : strHasSub roleStr kv.1
    · rw [if_pos hs]
      exact addCredit_keys_nodup h
    · rw [if_neg hs]
      exact h

theorem foldl_roleStep_values_nodup (roleStr name : String) :
    ∀ (kvs : List (String × String)) (acc : List (String × List String) × List String),
      (∀ p ∈ acc.1, p.2.Nodup) →
      ∀ p ∈ (kvs.foldl (roleStep roleStr name) acc).1, p.2.Nodup := by
  intro kvs
  induction kvs with
  | nil => intro acc h; exact h
  | cons kv rest ih =>
    intro acc h
    rw [List.foldl_cons]
    refine ih _ ?_
    unfold roleStep
    by_cases hs : strHasSub roleStr kv.1
    · rw [if_pos hs]
      exact addCredit_values_nodup h
    · rw [if_neg hs]
      exact h

theorem processPerson_keys_nodup {temp : List (String × List String)} {p : CVPerson}
    (h : (temp.map Prod.fst).Nodup) :
    ((processPerson temp p).map Prod.fst).Nodup := by
  unfold processPerson
  cases hn : truthy p.name with
  | none => exact h
  | some name =>
    dsimp only
    have hfold := foldl_roleStep_keys_nodup (pyLower (p.role.getD "")) name
      person_roles_map (temp, []) h
    by_cases ha : !(["Penciller", "Inker", "Colorist", "CoverArtist"].any
        (fun u => (person_roles_map.foldl (roleStep (pyLower (p.role.getD "")) name)
          (temp, [])).2.contains u))
    · rw [if_pos ha]
      by_cases hg : generic_art_roles.any
          (fun g => strHasSub (pyLower (p.role.getD "")) g)
      · rw [if_pos hg]
        exact addCredit_keys_nodup hfold
      · rw [if_neg hg]
        exact hfold
    · rw [if_neg ha]
      exact hfold

theorem processPerson_values_nodup {temp : List (String × List String)} {p : CVPerson}
    (h : ∀ q ∈ temp, q.2.Nodup) :
    ∀ q ∈ processPerson temp p, q.2.Nodup := by
  unfold processPerson
  cases hn : truthy p.name with
  | none => exact h
  | some name =>
    dsimp only
    have hfold := foldl_roleStep_values_nodup (pyLower (p.role.getD "")) name
      person_roles_map (temp, []) h
    by_cases ha : !(["Penciller", "Inker", "Colorist", "CoverArtist"].any
        (fun u => (person_roles_map.foldl (roleStep (pyLower (p.role.getD "")) name)
          (temp, [])).2.contains u))
    · rw [if_pos ha]
      by_cases hg : generic_art_roles.any
          (fun g => strHasSub (pyLower (p.role.getD "")) g)
      · rw [if_pos hg]
        exact addCredit_values_nodup hfold
      · rw [if_neg hg]
        exact hfold
    · rw [if_neg ha]
      exact hfold

theorem temp_credits_keys_nodup (cv : CVIssue) :
    ((temp_credits_by_ci_tag cv).map Prod.fst).Nodup := by
  unfold temp_credits_by_ci_tag
  have hgen : ∀ (ps : List CVPerson) (temp : List (String × List String)),
      (temp.map Prod.fst).Nodup → ((ps.foldl processPerson temp).map Prod.fst).Nodup := by
    intro ps
    induction ps with
    | nil => intro temp h; exact h
    | cons p rest ih =>
      intro temp h
      rw [List.foldl_cons]
      exact ih _ (processPerson_keys_nodup h)
  exact hgen cv.person_credits [] (by simp)

theorem temp_credits_values_nodup (cv : CVIssue) :
    ∀ p ∈ temp_credits_by_ci_tag cv, p.2.Nodup := by
  unfold temp_credits_by_ci_tag
  have hgen : ∀ (ps : List CVPerson) (temp : List (String × List String)),
      (∀ q ∈ temp, q.2.Nodup) → ∀ q ∈ ps.foldl processPerson temp, q.2.Nodup := by
    intro ps
    induction ps with
    | nil => intro temp h; exact h
    | cons p rest ih =>
      intro temp h
      rw [List.foldl_cons]
      exact ih _ (processPerson_values_nodup h)
  exact hgen cv.person_credits [] (by simp)

theorem dget_phaseCoverDate_ne (cv : CVIssue) (d : List (String × String))
    (k : String) (h1 : k ≠ "Year") (h2 : k ≠ "Month") (h3 : k ≠ "Day") :
    dget (phaseCoverDate cv d) k = dget d k := by
  unfold phaseCoverDate
  cases truthy cv.cover_date with
  | none => rfl
  | some ds =>
    dsimp only
    cases coverDateFields ds with
    | none => rfl
    | some ymd =>
      obtain ⟨y, mo, dy⟩ := ymd
      dsimp only
      cases mo with
      | none =>
        cases dy with
        | none => exact dget_dinsert_ne _ _ _ _ h1
        | some dd => rw [dget_dinsert_ne _ _ _ _ h3, dget_dinsert_ne _ _ _ _ h1]
      | some m =>
        cases dy with
        | none => rw [dget_dinsert_ne _ _ _ _ h2, dget_dinsert_ne _ _ _ _ h1]
        | some dd =>
          rw [dget_dinsert_ne _ _ _ _ h3, dget_dinsert_ne _ _ _ _ h2,
            dget_dinsert_ne _ _ _ _ h1]

theorem dget_volStartYear_ne (vol : CVVolume) (d : List (String × String))
    (k : String) (h : k ≠ "Year") : dget (volStartYear vol d) k = dget d k := by
  unfold volStartYear
  cases truthy vol.start_year with
  | none => rfl
  | some sy =>
    dsimp only
    by_cases hc : dcontains d "Year"
    · rw [if_pos hc]
    · rw [if_neg hc, dget_dinsert_ne _ _ _ _ h]

theorem dget_phaseVolume_ne (cv : CVIssue) (d : List (String × String))
    (k : String) (h1 : k ≠ "Series") (h2 : k ≠ "Publisher") (h3 : k ≠ "Count")
    (h4 : k ≠ "Year") : dget (phaseVolume cv d) k = dget d k := by
  unfold phaseVolume
  cases cv.volume with
  | none => rfl
  | some vol =>
    dsimp only
    rw [dget_volStartYear_ne _ _ _ h4, dget_volCount_ne _ _ _ h3,
      dget_volPublisher_ne _ _ _ h2, dget_volSeries_ne _ _ _ h1]

theorem dget_map_generic_self (items : List CVNamed) (tag : String)
    (d : List (String × String)) (hne : items.isEmpty = false)
    (hn : (namesOfList items).isEmpty = false) :
    dget (map_generic_credits_list items tag d) tag =
      some (String.intercalate ", " (namesOfList items)) := by
  unfold map_generic_credits_list
  rw [if_neg (by rw [hne]; exact Bool.false_ne_true),
    if_neg (by rw [hn]; exact Bool.false_ne_true), dget_dinsert_self]

theorem dget_phaseConcepts_Genre (cv : CVIssue) (d : List (String × String))
    (hprior : dget d "Genre" = none) (hcs : cv.concept_credits.isEmpty = false)
    (hnn : (namesOfList cv.concept_credits).isEmpty = false) :
    dget (phaseConcepts cv d) "Genre" =
      some (String.intercalate ", "
        (sortStrings ((namesOfList cv.concept_credits).dedup))) := by
  unfold phaseConcepts
  rw [hcs]
  simp only [Bool.false_eq_true, if_false]
  rw [if_neg (by rw [hnn]; exact Bool.false_ne_true), hprior]
  have hsplit : ((pySplit (Option.getD none "") ',').map pyStrip).filter
      (fun s => s != "") = [] := rfl
  rw [hsplit, List.nil_append]
  have hded : ((namesOfList cv.concept_credits).dedup).isEmpty = false := by
    have hne : namesOfList cv.concept_credits ≠ [] := by
      cases h : namesOfList cv.concept_credits
      · rw [h] at hnn; simp at hnn
      · exact fun hx => by simp [h] at hx
    have : (namesOfList cv.concept_credits).dedup ≠ [] := by
      intro hx
      exact hne ((List.dedup_eq_nil _).mp hx)
    cases h : (namesOfList cv.concept_credits).dedup
    · exact absurd h this
    · rfl
  rw [if_neg (by rw [hded]; exact Bool.false_ne_true), dget_dinsert_self]

theorem namesOfList_spec (items : List CVNamed) :
    List.Sorted pyStrLe (namesOfList items) ∧ (namesOfList items).Nodup ∧
      ∀ n, n ∈ namesOfList items ↔ n ∈ items.filterMap (fun i => truthy i.name) := by
  refine ⟨List.sorted_insertionSort pyStrLe _, ?_, ?_⟩
  · exact ((List.perm_insertionSort pyStrLe _).nodup_iff).mpr (List.nodup_dedup _)
  · intro n
    unfold namesOfList sortStrings
    rw [List.mem_insertionSort, List.mem_dedup]

theorem strip_filter_true {v : String} (h : ¬(pyStrip v == "")) :
    (pyStrip v != "") = true := by
  unfold bne
  cases hb : (pyStrip v == "") with
  | false => rfl
  | true => exact absurd hb h

/-- C7 (amended): every list-valued concept of the source record — the four
generic credit lists, the concepts folded into `Genre`, and the
contributors grouped per canonical credit tag — is emitted as a single
comma-joined string of names de-duplicated by exact match and sorted by
Unicode code point: Python's case-sensitive `sorted` order, not a
case-insensitive one. Each clause exhibits the joined list together with
its sortedness, freedom from duplicates, and the exact membership
characterization. -/
theorem c7_list_flattening (cv : CVIssue) :
    (cv.character_credits.isEmpty = false →
      (namesOfList cv.character_credits).isEmpty = false →
      ¬(pyStrip (String.intercalate ", " (namesOfList cv.character_credits)) == "") →
      dget (map_cv_to_comicinfo_dict cv) "Characters" =
        some (String.intercalate ", " (namesOfList cv.character_credits)) ∧
      List.Sorted pyStrLe (namesOfList cv.character_credits) ∧
      (namesOfList cv.character_credits).Nodup ∧
      (∀ n, n ∈ namesOfList cv.character_credits ↔
        n ∈ cv.character_credits.filterMap (fun i => truthy i.name))) ∧
    (cv.team_credits.isEmpty = false →
      (namesOfList cv.team_credits).isEmpty = false →
      ¬(pyStrip (String.intercalate ", " (namesOfList cv.team_credits)) == "") →
      dget (map_cv_to_comicinfo_dict cv) "Teams" =
        some (String.intercalate ", " (namesOfList cv.team_credits)) ∧
      List.Sorted pyStrLe (namesOfList cv.team_credits) ∧
      (namesOfList cv.team_credits).Nodup ∧
      (∀ n, n ∈ namesOfList cv.team_credits ↔
        n ∈ cv.team_credits.filterMap (fun i => truthy i.name))) ∧
    (cv.location_credits.isEmpty = false →
      (namesOfList cv.location_credits).isEmpty = false →
      ¬(pyStrip (String.intercalate ", " (namesOfList cv.location_credits)) == "") →
      dget (map_cv_to_comicinfo_dict cv) "Locations" =
        some (String.intercalate ", " (namesOfList cv.location_credits)) ∧
      List.Sorted pyStrLe (namesOfList cv.location_credits) ∧
      (namesOfList cv.location_credits).Nodup ∧
      (∀ n, n ∈ namesOfList cv.location_credits ↔
        n ∈ cv.location_credits.filterMap (fun i => truthy i.name))) ∧
    (cv.story_arc_credits.isEmpty = false →
      (namesOfList cv.story_arc_credits).isEmpty = false →
      ¬(pyStrip (String.intercalate ", " (namesOfList cv.story_arc_credits)) == "") →
      dget (map_cv_to_comicinfo_dict cv) "StoryArc" =
        some (String.intercalate ", " (namesOfList cv.story_arc_credits)) ∧
      List.Sorted pyStrLe (namesOfList cv.story_arc_credits) ∧
      (namesOfList cv.story_arc_credits).Nodup ∧
      (∀ n, n ∈ namesOfList cv.story_arc_credits ↔
        n ∈ cv.story_arc_credits.filterMap (fun i => truthy i.name))) ∧
    (cv.concept_credits.isEmpty = false →
      (namesOfList cv.concept_credits).isEmpty = false →
      ¬(pyStrip (String.intercalate ", "
          (sortStrings ((namesOfList cv.concept_credits).dedup))) == "") →
      dget (map_cv_to_comicinfo_dict cv) "Genre" =
        some (String.intercalate ", "
          (sortStrings ((namesOfList cv.concept_credits).dedup))) ∧
      List.Sorted pyStrLe (sortStrings ((namesOfList cv.concept_credits).dedup)) ∧
      (sortStrings ((namesOfList cv.concept_credits).dedup)).Nodup ∧
      (∀ n, n ∈ sortStrings ((namesOfList cv.concept_credits).dedup) ↔
        n ∈ cv.concept_credits.filterMap (fun i => truthy i.name))) ∧
    (∀ tag ns, (tag, ns) ∈ temp_credits_by_ci_tag cv → ns.isEmpty = false →
      ¬(pyStrip (String.intercalate ", " (sortStrings ns)) == "") →
      dget (map_cv_to_comicinfo_dict cv) tag =
        some (String.intercalate ", " (sortStrings ns)) ∧
      List.Sorted pyStrLe (sortStrings ns) ∧
      (sortStrings ns).Nodup ∧
      (∀ n, n ∈ sortStrings ns ↔ n ∈ ns)) := by
  refine ⟨?_, ?_, ?_, ?_, ?_, ?_⟩
  · intro hitems hnames hstrip
    obtain ⟨hsort, hnod, hmem⟩ := namesOfList_spec cv.character_credits
    refine ⟨?_, hsort, hnod, hmem⟩
    unfold map_cv_to_comicinfo_dict mapCvPhases
    refine dget_filter ?_ (strip_filter_true hstrip)
    rw [dget_phaseDefaults_ne _ _ (by decide) (by decide),
      dget_phaseObjects_ne _ _ _ (by decide),
      dget_phaseConcepts_ne _ _ _ (by decide),
      dget_map_generic_ne _ _ _ _ (by decide),
      dget_map_generic_ne _ _ _ _ (by decide),
      dget_map_generic_ne _ _ _ _ (by decide),
      dget_map_generic_self _ _ _ hitems hnames]
  · intro hitems hnames hstrip
    obtain ⟨hsort, hnod, hmem⟩ := namesOfList_spec cv.team_credits
    refine ⟨?_, hsort, hnod, hmem⟩
    unfold map_cv_to_comicinfo_dict mapCvPhases
    refine dget_filter ?_ (strip_filter_true hstrip)
    rw [dget_phaseDefaults_ne _ _ (by decide) (by decide),
      dget_phaseObjects_ne _ _ _ (by decide),
      dget_phaseConcepts_ne _ _ _ (by decide),
      dget_map_generic_ne _ _ _ _ (by decide),
      dget_map_generic_ne _ _ _ _ (by decide),
      dget_map_generic_self _ _ _ hitems hnames]
  · intro hitems hnames hstrip
    obtain ⟨hsort, hnod, hmem⟩ := namesOfList_spec cv.location_credits
    refine ⟨?_, hsort, hnod, hmem⟩
    unfold map_cv_to_comicinfo_dict mapCvPhases
    refine dget_filter ?_ (strip_filter_true hstrip)
    rw [dget_phaseDefaults_ne _ _ (by decide) (by decide),
      dget_phaseObjects_ne _ _ _ (by decide),
      dget_phaseConcepts_ne _ _ _ (by decide),
      dget_map_generic_ne _ _ _ _ (by decide),
      dget_map_generic_self _ _ _ hitems hnames]
  · intro hitems hnames hstrip
    obtain ⟨hsort, hnod, hmem⟩ := namesOfList_spec cv.story_arc_credits
    refine ⟨?_, hsort, hnod, hmem⟩
    unfold map_cv_to_comicinfo_dict mapCvPhases
    refine dget_filter ?_ (strip_filter_true hstrip)
    rw [dget_phaseDefaults_ne _ _ (by decide) (by decide),
      dget_phaseObjects_ne _ _ _ (by decide),
      dget_phaseConcepts_ne _ _ _ (by decide),
      dget_map_generic_self _ _ _ hitems hnames]
  · intro hitems hnames hstrip
    obtain ⟨hsort0, hnod0, hmem0⟩ := namesOfList_spec cv.concept_credits
    refine ⟨?_, List.sorted_insertionSort pyStrLe _,
      ((List.perm_insertionSort pyStrLe _).nodup_iff).mpr (List.nodup_dedup _),
      fun n => ?_⟩
    · unfold map_cv_to_comicinfo_dict mapCvPhases
      refine dget_filter ?_ (strip_filter_true hstrip)
      have hprior : dget
          (map_generic_credits_list cv.story_arc_credits "StoryArc"
            (map_generic_credits_list cv.location_credits "Locations"
              (map_generic_credits_list cv.team_credits "Teams"
                (map_generic_credits_list cv.character_credits "Characters"
                  (phaseCredits cv (phaseVolume cv (phaseWeb cv (phaseDeck cv
                    (phaseSummary cv (phaseStoreDate cv (phaseCoverDate cv
                      (phaseAliases cv (phaseTitleNumber cv [])))))))))))))
          "Genre" = none := by
        rw [dget_map_generic_ne _ _ _ _ (by decide),
          dget_map_generic_ne _ _ _ _ (by decide),
          dget_map_generic_ne _ _ _ _ (by decide),
          dget_map_generic_ne _ _ _ _ (by decide),
          dget_phaseCredits_ne _ _ _ (by decide),
          dget_phaseVolume_ne _ _ _ (by decide) (by decide) (by decide) (by decide),
          dget_phaseWeb_ne _ _ _ (by decide),
          dget_phaseDeck_ne _ _ _ (by decide),
          dget_phaseSummary_ne _ _ _ (by decide),
          dget_phaseStoreDate_ne _ _ _ (by decide),
          dget_phaseCoverDate_ne _ _ _ (by decide) (by decide) (by decide),
          dget_phaseAliases_ne _ _ _ (by decide),
          dget_phaseTitleNumber_ne _ _ _ (by decide) (by decide)]
        rfl
      rw [dget_phaseDefaults_ne _ _ (by decide) (by decide),
        dget_phaseObjects_ne _ _ _ (by decide),
        dget_phaseConcepts_Genre cv _ hprior hitems hnames]
    · unfold sortStrings
      rw [List.mem_insertionSort, List.mem_dedup]
      exact hmem0 n
  · intro tag ns hmem hne hstrip
    have hmem' : (tag, ns) ∈ cv.person_credits.foldl processPerson [] := by
      unfold temp_credits_by_ci_tag at hmem
      exact hmem
    have htag : tag ∈ credit_tags :=
      creditTemp_keys cv.person_credits [] (by intro t ht; simp at ht) tag
        (List.mem_map.mpr ⟨(tag, ns), hmem', rfl⟩)
    have hfacts := (by decide :
      ∀ u ∈ credit_tags, u ≠ "Characters" ∧ u ≠ "Teams" ∧ u ≠ "Locations" ∧
        u ≠ "StoryArc" ∧ u ≠ "Genre" ∧ u ≠ "Notes" ∧ u ≠ "LanguageISO" ∧
        u ≠ "Format") tag htag
    have hnsnod : ns.Nodup := temp_credits_values_nodup cv (tag, ns) hmem
    refine ⟨?_, List.sorted_insertionSort pyStrLe ns,
      ((List.perm_insertionSort pyStrLe ns).nodup_iff).mpr hnsnod,
      fun n => List.mem_insertionSort pyStrLe⟩
    unfold map_cv_to_comicinfo_dict mapCvPhases
    refine dget_filter ?_ (strip_filter_true hstrip)
    rw [dget_phaseDefaults_ne _ _ hfacts.2.2.2.2.2.2.1 hfacts.2.2.2.2.2.2.2,
      dget_phaseObjects_ne _ _ _ hfacts.2.2.2.2.2.1,
      dget_phaseConcepts_ne _ _ _ hfacts.2.2.2.2.1,
      dget_map_generic_ne _ _ _ _ hfacts.2.2.2.1,
      dget_map_generic_ne _ _ _ _ hfacts.2.2.1,
      dget_map_generic_ne _ _ _ _ hfacts.2.1,
      dget_map_generic_ne _ _ _ _ hfacts.1]
    unfold phaseCredits
    exact dget_emitFold_mem (temp_credits_keys_nodup cv) hmem hne _

/-- Witness for C7 (amended) at a concrete issue with contributors,
characters and concepts. -/
theorem c7_witness :
    dget (map_cv_to_comicinfo_dict creditsSampleCV) "Characters" =
      some "Dr. Manhattan, Rorschach" ∧
    dget (map_cv_to_comicinfo_dict creditsSampleCV) "Genre" = some "Superhero" ∧
    dget (map_cv_to_comicinfo_dict creditsSampleCV) "Writer" = some "Alan Moore" := by
  obtain ⟨h1, _, _, _, h5, h6⟩ := c7_list_flattening creditsSampleCV
  refine ⟨?_, ?_, ?_⟩
  · have h := (h1 (by decide) (by decide) (by decide)).1
    rw [show String.intercalate ", " (namesOfList creditsSampleCV.character_credits) =
      "Dr. Manhattan, Rorschach" from by decide] at h
    exact h
  · have h := (h5 (by decide) (by decide) (by decide)).1
    rw [show String.intercalate ", "
        (sortStrings ((namesOfList creditsSampleCV.concept_credits).dedup)) =
      "Superhero" from by decide] at h
    exact h
  · have h := (h6 "Writer" ["Alan Moore"] (by decide) (by decide) (by decide)).1
    rw [show String.intercalate ", " (sortStrings ["Alan Moore"]) =
      "Alan Moore" from by decide] at h
    exact h
